import Mathlib

/-!
Verification development for the CCTV face-recognition attendance pipeline
(`ai/app/vision` and `ai/app/runtimes`).

Modelling conventions:
* Python floats are modelled as `ℚ` (only orderings and exact arithmetic on
  configuration values matter for the properties below; float rounding is not
  modelled).
* Python ints are `ℤ` (or `ℕ` where the source can only produce naturals).
* `Optional[T]` is `Option T`; Python string truthiness (`if s:`) is
  "not `None` and not the empty string".
* numpy arrays of image data and cv2 tracker objects are opaque to every
  property considered here; frames are represented by `ℕ` identifiers and
  the `kps` / `tracker` fields of tracks are omitted.
* `math`-library square roots of floats (used only for pixel distances in
  `tracker_manager._center_dist`) are abstracted as an arbitrary function
  parameter `sqrtQ : ℚ → ℚ`.
-/

/-- Pipeline configuration, translated from the dataclass
`pipeline_config.Config` (all fields, with the dataclass defaults as the
Lean default values). -/
structure Config where
  motion_threshold : ℚ := 0.020
  motion_hysteresis_ratio : ℚ := 0.70
  motion_cooldown_seconds : ℚ := 0.40
  motion_resize_w : ℤ := 320
  motion_resize_h : ℤ := 180
  idle_seconds : ℚ := 2.0
  detection_fps_idle : ℚ := 2.0
  detection_fps_normal : ℚ := 12.0
  detection_fps_burst : ℚ := 24.0
  burst_seconds : ℚ := 3.5
  embed_refresh_seconds : ℚ := 0.25
  embed_refresh_seconds_unknown : ℚ := 0.15
  unknown_burst_after_seconds : ℚ := 0.6
  similarity_threshold : ℚ := 0.35
  borderline_margin : ℚ := 0.05
  distinct_sim_margin : ℚ := 0.05
  attendance_debounce_seconds : ℚ := 10.0
  stable_id_confirmations : ℤ := 3
  attendance_fast_mode : Bool := false
  queue_size : ℤ := 3
  track_max_age_frames : ℤ := 30
  track_iou_match_threshold : ℚ := 0.25
  track_center_match_px : ℚ := 200.0
  track_known_reacquire_clear_iou : ℚ := 0.18
  track_known_reacquire_clear_center_ratio : ℚ := 0.65
  track_max_det_misses_unknown : ℤ := 0
  track_max_det_misses_known : ℤ := 12
  identity_hold_seconds : ℚ := 1.5
  identity_hold_min_iou : ℚ := 0.05
  identity_hold_max_det_misses : ℤ := 1
  identity_hold_max_center_shift_ratio : ℚ := 0.35
  attendance_max_embed_age_seconds : ℚ := 0.9
  attendance_min_identity_age_seconds : ℚ := 0.35
  max_detection_result_age_seconds : ℚ := 0.45
  kps_max_age_seconds : ℚ := 0.45
  strict_similarity_threshold : ℚ := 0.50
  min_att_quality : ℚ := 18.0
  log_interval_seconds : ℚ := 5.0
  verification_samples : ℤ := 3
  allow_single_sample_attendance : Bool := false

/-- `Config()` with all dataclass defaults. -/
def Config.defaults : Config := {}

/-- Integer bounding box `(x1, y1, x2, y2)`. -/
abbrev Box := ℤ × ℤ × ℤ × ℤ

/-- A track, translated from the dataclass `tracker_manager.Track`.
The opaque `tracker` (cv2 object) and `kps` (numpy landmark array) fields
are omitted; no property below depends on them.  The Python field
`_verify_last_embed_ts` is spelled `verify_last_embed_ts`. -/
structure Track where
  track_id : ℕ
  bbox : Box
  created_ts : ℚ
  last_seen_ts : ℚ
  lost_frames : ℤ := 0
  det_misses : ℤ := 0
  tracker_kind : String := "mil"
  person_id : Option String := none
  name : String := "Unknown"
  similarity : ℚ := 0
  stable_id_hits : ℤ := 0
  last_embed_ts : ℚ := 0
  unknown_since_ts : ℚ := 0
  last_identity_change_ts : ℚ := 0
  force_recognition_until_ts : ℚ := 0
  det_score : ℚ := 0
  last_det_ts : ℚ := 0
  last_known_ts : ℚ := 0
  last_known_bbox : Option Box := none
  verify_target_id : Option String := none
  verify_target_name : Option String := none
  verify_samples : List (String × ℚ) := []
  verify_started_ts : ℚ := 0
  verify_last_embed_ts : ℚ := 0

/-- Python truthiness of an `Optional[str]`: not `None` and not `""`. -/
def pyTruthy : Option String → Bool
  | none => false
  | some s => !(s = "")

/-- First truthy value of `a or b` for `Optional[str]` against a fallback
string (`str(a or b)` patterns in the source). -/
def optOr (a : Option String) (b : String) : String :=
  match a with
  | some s => if s = "" then b else s
  | none => b

/-- ASCII whitespace, as stripped by Python `str.strip()` (the strings the
pipeline strips are ASCII). -/
def pyIsSpace (c : Char) : Bool := c = ' ' ∨ c = '\t' ∨ c = '\n' ∨ c = '\r'

/-- Python `str.strip()` (ASCII whitespace). -/
def pyStrip (s : String) : String :=
  ⟨((s.data.dropWhile pyIsSpace).reverse.dropWhile pyIsSpace).reverse⟩

/-- Python `str.lower()` (ASCII). -/
def pyLower (s : String) : String := ⟨s.data.map Char.toLower⟩

/-- Python `str.replace(a, b)` for single-character patterns. -/
def pyReplaceChar (a b : Char) (s : String) : String :=
  ⟨s.data.map (fun c => if c = a then b else c)⟩

/-- Split a character list at a separator. -/
def splitOnChar (sep : Char) : List Char → List (List Char)
  | [] => [[]]
  | c :: cs =>
    match splitOnChar sep cs with
    | [] => [[]]
    | g :: gs => if c = sep then [] :: g :: gs else (c :: g) :: gs

/-- `db_writer.AttendanceWriteJob`.  The `timestamp_iso` field is produced by
`now_iso()` from the wall clock and is not modelled (no property below reads
it). -/
structure AttendanceWriteJob where
  company_id : Option String
  camera_id : String
  camera_name : String
  employee_id : String
  name : String
  similarity : ℚ
deriving DecidableEq

/-- `attendance_debouncer.DebounceResult`. -/
structure DebounceResult where
  job : Option AttendanceWriteJob := none
  reason : String := ""
deriving DecidableEq

/-- `adaptive_scheduler.Mode`. -/
inductive Mode where
  | IDLE
  | NORMAL
  | BURST
deriving DecidableEq

/-- `adaptive_scheduler.SchedulerState`. -/
structure SchedulerState where
  mode : Mode := Mode.IDLE
  last_mode_change_ts : ℚ := 0
  last_activity_ts : ℚ := 0
  burst_until_ts : ℚ := 0
  last_detection_ts : ℚ := 0
  recent_burst_reasons : List String := []

/-- `AdaptiveScheduler.force_burst` (source lines 42-52). -/
def forceBurst (cfg : Config) (st : SchedulerState) (reason : String) (now : ℚ) :
    SchedulerState :=
  let st := { st with burst_until_ts := max st.burst_until_ts (now + cfg.burst_seconds) }
  let st :=
    if st.mode ≠ Mode.BURST then
      { st with mode := Mode.BURST, last_mode_change_ts := now }
    else st
  let r := if pyStrip reason = "" then "unspecified" else pyStrip reason
  let rs := st.recent_burst_reasons ++ [r]
  { st with recent_burst_reasons := if rs.length > 6 then rs.drop (rs.length - 6) else rs }

/-- `AdaptiveScheduler.should_run_recognition` (source lines 114-129).
Takes the scheduler state, the track, and the explicit `now`. -/
def shouldRunRecognition (cfg : Config) (st : SchedulerState) (tr : Track)
    (now : ℚ) : Bool :=
  let force_until := tr.force_recognition_until_ts
  let last_embed := tr.last_embed_ts
  if st.mode = Mode.IDLE ∧ now ≥ force_until then false
  else if now < force_until then
    let min_period := 1 / max 1 cfg.detection_fps_burst
    now - last_embed ≥ max 0.05 min_period
  else
    now - last_embed ≥ cfg.embed_refresh_seconds

/-- The debouncer's `_last_marked` dictionary: a total map from key strings
to the last-marked time, with the dictionary's `.get(key, 0.0)` default
built in. -/
def DebMap := String → ℚ

/-- Fresh debouncer state (empty `_last_marked`). -/
def DebMap.empty : DebMap := fun _ => 0

/-- `AttendanceDebouncer._key`. -/
def debKey (company_id : Option String) (employee_id : String) : String :=
  pyStrip (match company_id with | some s => s | none => "") ++ ":" ++ pyStrip employee_id

/-- `AttendanceDebouncer.mark_enqueued` (source lines 32-41). -/
def markEnqueued (m : DebMap) (company_id : Option String) (employee_id : String)
    (now : ℚ) : DebMap :=
  fun k => if k = debKey company_id employee_id then now else m k

/-- `AttendanceDebouncer.note_seen` (source lines 43-63). -/
def noteSeen (cfg : Config) (m : DebMap) (company_id : Option String)
    (employee_id : String) (now : ℚ) : DebMap :=
  let key := debKey company_id employee_id
  let last := m key
  if last ≤ 0 then m
  else if cfg.attendance_debounce_seconds ≤ 0 then m
  else if now - last < cfg.attendance_debounce_seconds then
    fun k => if k = key then now else m k
  else m

/-- `AttendanceDebouncer._reset_verification`. -/
def resetVerification (tr : Track) : Track :=
  { tr with verify_target_id := none, verify_target_name := none,
            verify_samples := [], verify_started_ts := 0,
            verify_last_embed_ts := 0 }

/-- Output of one `consider` call: the `DebounceResult` plus the mutated
track, `_last_marked` map and scheduler state. -/
structure ConsiderOut where
  result : DebounceResult
  track : Track
  deb : DebMap
  sched : SchedulerState

/-- Count of samples voting for the target and the mean similarity over the
target's samples (0 when there are none), as computed at
`_step_verification` lines 200-203. -/
def verifyVotes (samples : List (String × ℚ)) (target : String) : ℕ :=
  (samples.filter (fun p => p.1 = target)).length

def verifyAvg (samples : List (String × ℚ)) (target : String) : ℚ :=
  let scores := (samples.filter (fun p => p.1 = target)).map Prod.snd
  if scores = [] then 0 else scores.sum / scores.length

/-- The sample list after the collection step of `_step_verification`
(source lines 181-184): a new `(person_id, similarity)` sample is appended
when a new embedding arrived since the last collected one. -/
def verifySamplesAfter (tr : Track) : List (String × ℚ) :=
  if tr.last_embed_ts > 0 ∧ tr.last_embed_ts ≠ tr.verify_last_embed_ts then
    match tr.person_id with
    | some pid => tr.verify_samples ++ [(pid, tr.similarity)]
    | none => tr.verify_samples
  else tr.verify_samples

/-- `AttendanceDebouncer._step_verification` (source lines 152-228). -/
def stepVerification (cfg : Config) (m : DebMap) (camera_id camera_name : String)
    (company_id : Option String) (tr : Track) (sched : SchedulerState)
    (now : ℚ) : ConsiderOut :=
  let need := cfg.verification_samples
  if need ≤ 1 then
    let target := pyStrip (optOr tr.verify_target_id (optOr tr.person_id ""))
    if target = "" then
      ⟨⟨none, "verify_no_target"⟩, resetVerification tr, m, sched⟩
    else
      let job : AttendanceWriteJob :=
        { company_id := company_id, camera_id := camera_id,
          camera_name := camera_name, employee_id := target,
          name := optOr tr.verify_target_name (if tr.name = "" then target else tr.name),
          similarity := tr.similarity }
      ⟨⟨some job, "verified_fast"⟩, resetVerification tr, m, sched⟩
  else
    let tr :=
      if tr.last_embed_ts > 0 ∧ tr.last_embed_ts ≠ tr.verify_last_embed_ts then
        { tr with verify_samples := verifySamplesAfter tr,
                  verify_last_embed_ts := tr.last_embed_ts }
      else tr
    let started := if tr.verify_started_ts = 0 then now else tr.verify_started_ts
    if now - started > cfg.burst_seconds + 2 then
      ⟨⟨none, "verify_timeout"⟩, resetVerification tr, m, sched⟩
    else if (tr.verify_samples.length : ℤ) < need then
      let sched := forceBurst cfg sched "verify" now
      let tr := { tr with
        force_recognition_until_ts := max tr.force_recognition_until_ts (now + cfg.burst_seconds) }
      ⟨⟨none, "verify_collecting"⟩, tr, m, sched⟩
    else
      match tr.verify_target_id with
      | none => ⟨⟨none, "verify_no_target"⟩, resetVerification tr, m, sched⟩
      | some target =>
        if target = "" then
          ⟨⟨none, "verify_no_target"⟩, resetVerification tr, m, sched⟩
        else
          let vote_count := verifyVotes tr.verify_samples target
          let avg := verifyAvg tr.verify_samples target
          let required_avg := cfg.similarity_threshold + cfg.borderline_margin
          let ok := (vote_count : ℤ) ≥ need / 2 + 1 ∧ avg ≥ required_avg
          let target_name :=
            optOr tr.verify_target_name (if tr.name = "" then target else tr.name)
          let similarity := tr.similarity
          let tr := resetVerification tr
          if ok then
            let job : AttendanceWriteJob :=
              { company_id := company_id, camera_id := camera_id,
                camera_name := camera_name, employee_id := target,
                name := target_name, similarity := similarity }
            ⟨⟨some job, "verified"⟩, tr, m, sched⟩
          else
            ⟨⟨none, "verify_failed"⟩, tr, m, sched⟩

/-- `AttendanceDebouncer.consider` (source lines 65-150). -/
def consider (cfg : Config) (m : DebMap) (camera_id camera_name : String)
    (company_id : Option String) (tr : Track) (sched : SchedulerState)
    (now : ℚ) : ConsiderOut :=
  match tr.person_id with
  | none => ⟨⟨none, "unknown"⟩, resetVerification tr, m, sched⟩
  | some pid =>
    if pyTruthy tr.verify_target_id then
      stepVerification cfg m camera_id camera_name company_id tr sched now
    else if tr.stable_id_hits < cfg.stable_id_confirmations then
      ⟨⟨none, "unstable_id"⟩, tr, m, sched⟩
    else if tr.similarity < max cfg.similarity_threshold cfg.strict_similarity_threshold then
      ⟨⟨none, "low_similarity"⟩, tr, m, sched⟩
    else if cfg.attendance_min_identity_age_seconds > 0 ∧
        (tr.last_identity_change_ts ≤ 0 ∨
          now - tr.last_identity_change_ts < cfg.attendance_min_identity_age_seconds) then
      ⟨⟨none, "identity_too_fresh"⟩, tr, m, sched⟩
    else if cfg.attendance_max_embed_age_seconds > 0 ∧
        (tr.last_embed_ts ≤ 0 ∨
          now - tr.last_embed_ts > cfg.attendance_max_embed_age_seconds) then
      ⟨⟨none, "stale_embedding"⟩, tr, m, sched⟩
    else
      let key := debKey company_id pid
      if now - m key < cfg.attendance_debounce_seconds then
        ⟨⟨none, "debounce_extend"⟩, tr, (fun k => if k = key then now else m k), sched⟩
      else if cfg.verification_samples ≤ 1 then
        let job : AttendanceWriteJob :=
          { company_id := company_id, camera_id := camera_id,
            camera_name := camera_name, employee_id := pid,
            name := if tr.name = "" then pid else tr.name,
            similarity := tr.similarity }
        ⟨⟨some job, "verified_fast"⟩, tr, m, sched⟩
      else
        let tr :=
          { tr with verify_target_id := tr.person_id,
                    verify_target_name := some tr.name,
                    verify_started_ts := now,
                    verify_samples :=
                      if tr.last_embed_ts > 0 then [(pid, tr.similarity)] else [],
                    verify_last_embed_ts :=
                      if tr.last_embed_ts > 0 then tr.last_embed_ts else 0 }
        let sched := forceBurst cfg sched "verify" now
        let tr := { tr with
          force_recognition_until_ts := max tr.force_recognition_until_ts (now + cfg.burst_seconds) }
        ⟨⟨none, "verify_started"⟩, tr, m, sched⟩

/-- `gpu_arbiter.Detection` (the numpy `kps` landmark array is omitted). -/
structure Detection where
  bbox : Box
  det_score : ℚ
deriving DecidableEq

/-- `gpu_arbiter.DetectionResult`. -/
structure DetectionResult where
  seq : ℕ
  ts : ℚ
  detections : List Detection
deriving DecidableEq

/-- State of the GPU arbiter projected onto a single camera: the camera's
`_CameraQueue` (`frames`, `dropped`), its membership in the pending
round-robin set, its `_seq` counter and `_results` slot.  The fields
`submittedLog`, `processedLog` and `resultsLog` are ghost history variables:
every frame ever submitted, every frame ever passed to `detect_fn`, and
every `DetectionResult` ever stored, in order.  Frames are `ℕ` identifiers
paired with their submission timestamp. -/
structure ArbiterState where
  queueSize : ℕ
  frames : List (ℚ × ℕ) := []
  dropped : ℕ := 0
  pending : Bool := false
  seq : ℕ := 0
  latest : Option DetectionResult := none
  submittedLog : List (ℚ × ℕ) := []
  processedLog : List (ℚ × ℕ) := []
  resultsLog : List DetectionResult := []

/-- The `while len(q.frames) >= self._queue_size: q.frames.popleft(); q.dropped += 1`
loop of `GPUArbiter.submit` (source lines 76-78).  Terminates because each
iteration removes the head; for `queueSize ≥ 1` (enforced by the
constructor) this matches the Python loop exactly. -/
def evictLoop (queueSize : ℕ) : List (ℚ × ℕ) → ℕ → List (ℚ × ℕ) × ℕ
  | [], dropped => ([], dropped)
  | f :: fs, dropped =>
    if (f :: fs).length ≥ queueSize then evictLoop queueSize fs (dropped + 1)
    else (f :: fs, dropped)

/-- `GPUArbiter.__init__`: `queue_size = max(1, int(queue_size))`, empty
per-camera state. -/
def arbInit (queue_size : ℤ) : ArbiterState :=
  { queueSize := (max 1 queue_size).toNat }

/-- `GPUArbiter.submit` for this camera (source lines 70-84). -/
def arbSubmit (st : ArbiterState) (ts : ℚ) (frame : ℕ) : ArbiterState :=
  let ed := evictLoop st.queueSize st.frames st.dropped
  { st with frames := ed.1 ++ [(ts, frame)], dropped := ed.2, pending := true,
            submittedLog := st.submittedLog ++ [(ts, frame)] }

/-- One iteration of `GPUArbiter._loop` serving this camera (source lines
99-134), with the `detect_fn` call treated as an atomic step.  When the
camera is not pending the worker is busy elsewhere or waiting and nothing
happens; when its queue is unexpectedly empty the loop `continue`s. -/
def arbPick (detect_fn : ℕ → List Detection) (st : ArbiterState) : ArbiterState :=
  if st.pending = false then st
  else
    let st := { st with pending := false }
    match st.frames.getLast? with
    | none => st
    | some tf =>
      let rest := st.frames.dropLast
      let dets := detect_fn tf.2
      let seq := st.seq + 1
      let result : DetectionResult := ⟨seq, tf.1, dets⟩
      let st := { st with frames := [], dropped := st.dropped + rest.length,
                          seq := seq, latest := some result,
                          resultsLog := st.resultsLog ++ [result],
                          processedLog := st.processedLog ++ [tf] }
      if st.frames ≠ [] ∧ st.pending = false then { st with pending := true } else st

/-- Events touching one camera of the arbiter: a `submit` from the capture
thread, or a worker pickup. -/
inductive ArbOp where
  | submit (ts : ℚ) (frame : ℕ)
  | pick

/-- Run a sequence of arbiter events from a given state. -/
def arbRunFrom (detect_fn : ℕ → List Detection) (st : ArbiterState)
    (ops : List ArbOp) : ArbiterState :=
  ops.foldl
    (fun st op =>
      match op with
      | ArbOp.submit ts f => arbSubmit st ts f
      | ArbOp.pick => arbPick detect_fn st)
    st

/-- Run a sequence of arbiter events from the initial state. -/
def arbRun (detect_fn : ℕ → List Detection) (queue_size : ℤ)
    (ops : List ArbOp) : ArbiterState :=
  arbRunFrom detect_fn (arbInit queue_size) ops

/-- A voice event as appended by `AttendanceRuntime.push_voice_event`. -/
structure VoiceEvent where
  seq : ℕ
  text : String
  employee_id : String
  name : String
  camera_id : String
  camera_name : String
  company_id : String
deriving DecidableEq

/-- Per-company voice state: `_voice_seq[company_key]` and
`_voice_events[company_key]`.  `fullLog` is a ghost history variable holding
every event ever appended to the bucket, in order. -/
structure VoiceState where
  seq : ℕ := 0
  events : List VoiceEvent := []
  fullLog : List VoiceEvent := []

/-- Python `str.split()` restricted to space-separated input (the strings
split in `push_voice_event` have had `,` and `.` replaced by spaces). -/
def pySplit (s : String) : List String :=
  ((splitOnChar ' ' s.data).map (fun g => (⟨g⟩ : String))).filter (fun t => t ≠ "")

/-- The `explicit_map` of `push_voice_event` (source lines 472-489). -/
def voiceExplicitMap : List (String × String) :=
  [("asif mamun hridoy", "Hridoy"), ("raihan jami khan", "Jami"),
   ("dipan kumar kundu", "Kundu"), ("md zahidul islam", "Yuvraj"),
   ("rajebul hasan rajon", "Rajon"), ("tahmid afsar", "Shopno"),
   ("eunus nobi rubel", "Rubel"), ("md. ashanur kabir", "Ashanur kabir"),
   ("md. sadmanur islam shishir", "shishir"),
   ("md maimoon hossain shomoy", "Shomoy"), ("bani amin jwel", "Jwel"),
   ("s.m rakib rahman tuhin", "Tuhin"), ("sohanur rahman sohan", "Sohan"),
   ("md. nizam uddin shamrat", "Shamrat"), ("naimul hasan jisan", "Jisan")]

/-- The honorific first tokens skipped by `push_voice_event`. -/
def voiceHonorifics : List String :=
  ["mr", "mrs", "ms", "md", "dr", "allama", "mohammad", "s.m", "al"]

/-- The spoken first name computed by `push_voice_event` (source lines
463-510). -/
def voiceFirstName (employee_id name : String) : String :=
  let full_name := pyStrip name
  let tokens :=
    if full_name = "" then []
    else pySplit (pyReplaceChar '.' ' ' (pyReplaceChar ',' ' ' full_name))
  let first0 := match tokens with | t :: _ => t | [] => pyStrip employee_id
  let normalized_full := pyStrip (pyLower (String.intercalate " " tokens))
  let first1 :=
    match voiceExplicitMap.lookup normalized_full with
    | some v => v
    | none => first0
  let first2 :=
    if tokens.length ≥ 2 ∧ pyLower first1 ∈ voiceHonorifics then
      (tokens.get? 1).getD first1
    else first1
  if pyStrip first2 ≠ "" then pyStrip first2
  else if pyStrip employee_id ≠ "" then pyStrip employee_id
  else "there"

/-- Payload of one `push_voice_event` call (the company key is fixed: we
model the per-company projection of the state dictionaries). -/
structure VoicePush where
  employee_id : String
  name : String
  camera_id : String
  camera_name : String
deriving DecidableEq

/-- `AttendanceRuntime.push_voice_event` for one company key (source lines
450-531): assign `seq+1`, append, trim the head when the bucket exceeds
`voice_max_events`.  Returns the assigned seq and the new state. -/
def pushVoiceEvent (maxEvents : ℤ) (companyKey : String) (st : VoiceState)
    (p : VoicePush) : ℕ × VoiceState :=
  let text := "Thank you, " ++ voiceFirstName p.employee_id p.name ++ "."
  let seq := st.seq + 1
  let ev : VoiceEvent :=
    ⟨seq, text, p.employee_id, p.name, p.camera_id, p.camera_name, companyKey⟩
  let bucket := st.events ++ [ev]
  let bucket :=
    if maxEvents > 0 ∧ (bucket.length : ℤ) > maxEvents then
      bucket.drop (bucket.length - maxEvents.toNat)
    else bucket
  (seq, ⟨seq, bucket, st.fullLog ++ [ev]⟩)

/-- Run a sequence of `push_voice_event` calls, collecting the returned
seq values. -/
def voiceRunFrom (maxEvents : ℤ) (companyKey : String) (st : VoiceState) :
    List VoicePush → List ℕ × VoiceState
  | [] => ([], st)
  | p :: ps =>
    let r := pushVoiceEvent maxEvents companyKey st p
    let rest := voiceRunFrom maxEvents companyKey r.2 ps
    (r.1 :: rest.1, rest.2)

/-- Run a sequence of `push_voice_event` calls from the initial (absent-key)
state. -/
def voiceRun (maxEvents : ℤ) (companyKey : String) (ps : List VoicePush) :
    List ℕ × VoiceState :=
  voiceRunFrom maxEvents companyKey {} ps

/-- Dot product of two embedding vectors (one row of `gallery_embs @ emb`). -/
def dotQ (a b : List ℚ) : ℚ := (List.zipWith (· * ·) a b).sum

/-- `np.argmax` over a vector: the first index attaining the maximum. -/
def argmaxIdx (xs : List ℚ) : ℕ := xs.indexOf ((xs.max?).getD 0)

/-- `recognizer.match_gallery` (source lines 127-132). -/
def matchGallery (emb : List ℚ) (gallery : List (List ℚ)) : ℤ × ℚ :=
  if gallery = [] then (-1, -1)
  else
    let sims := gallery.map (fun row => dotQ row emb)
    let i := argmaxIdx sims
    ((i : ℤ), sims.getD i 0)

/-- Result of `AttendanceRuntime._match_embedding`. -/
structure MatchResult where
  person_id : Option String
  name : String
  score : ℚ
deriving DecidableEq

/-- `AttendanceRuntime._match_embedding` (source lines 778-795): gallery
rows paired with `gallery_meta` entries `(emp_int, emp_id_str, name)`. -/
def matchEmbedding (gallery : List (List ℚ)) (meta : List (ℤ × String × String))
    (emb : List ℚ) : MatchResult :=
  if gallery = [] then ⟨none, "Unknown", -1⟩
  else
    let p := matchGallery emb gallery
    if p.1 ≠ -1 ∧ p.1 < (meta.length : ℤ) then
      match meta.get? p.1.toNat with
      | some m => ⟨some m.2.1, m.2.2, p.2⟩
      | none => ⟨none, "Unknown", p.2⟩
    else ⟨none, "Unknown", p.2⟩

/-- Modelled from the spec (claim C4): "top-1 must exceed the best score of
any different-person entry by `distinct_sim_margin`".  A different-person
entry is a gallery row whose meta employee id differs from the matched
one. -/
def specDistinctMarginOK (cfg : Config) (gallery : List (List ℚ))
    (meta : List (ℤ × String × String)) (emb : List ℚ) : Bool :=
  let sims := gallery.map (fun row => dotQ row emb)
  let i := argmaxIdx sims
  let top := sims.getD i 0
  match meta.get? i with
  | none => true
  | some mi =>
    (List.range meta.length).all (fun j =>
      if (meta.getD j (0, "", "")).2.1 ≠ mi.2.1 then
        decide (sims.getD j 0 + cfg.distinct_sim_margin ≤ top)
      else true)

/-- Modelled from the spec (claim C9): "now − last_embed_ts ≥
embed_refresh_seconds (use embed_refresh_seconds_unknown for unknown
tracks)". -/
def specShouldRunRecognition (cfg : Config) (tr : Track) (now : ℚ) : Bool :=
  let period :=
    if tr.person_id = none then cfg.embed_refresh_seconds_unknown
    else cfg.embed_refresh_seconds
  now - tr.last_embed_ts ≥ period

/-- `tracker_manager._bbox_iou` (source lines 14-25). -/
def bboxIou (a b : Box) : ℚ :=
  let (ax1, ay1, ax2, ay2) := a
  let (bx1, by1, bx2, by2) := b
  let ix1 := max ax1 bx1
  let iy1 := max ay1 by1
  let ix2 := min ax2 bx2
  let iy2 := min ay2 by2
  let iw := max 0 (ix2 - ix1)
  let ih := max 0 (iy2 - iy1)
  let inter := iw * ih
  let area_a := max 0 (ax2 - ax1) * max 0 (ay2 - ay1)
  let area_b := max 0 (bx2 - bx1) * max 0 (by2 - by1)
  (inter : ℚ) / ((area_a + area_b - inter : ℤ) + 1 / 1000000)

/-- `tracker_manager._center_dist` (source lines 28-34); the float square
root is the abstracted `sqrtQ`. -/
def centerDist (sqrtQ : ℚ → ℚ) (a b : Box) : ℚ :=
  let (ax1, ay1, ax2, ay2) := a
  let (bx1, by1, bx2, by2) := b
  let acx : ℚ := (ax1 + ax2 : ℤ) * (1/2)
  let acy : ℚ := (ay1 + ay2 : ℤ) * (1/2)
  let bcx : ℚ := (bx1 + bx2 : ℤ) * (1/2)
  let bcy : ℚ := (by1 + by2 : ℤ) * (1/2)
  let dx := acx - bcx
  let dy := acy - bcy
  sqrtQ (dx * dx + dy * dy)

/-- Clamping of a detection bbox to the frame (source lines 206-210). -/
def clampBox (w h : ℤ) (b : Box) : Box :=
  let (x1, y1, x2, y2) := b
  (max 0 (min (w - 1) x1), max 0 (min (h - 1) y1), max 0 (min w x2), max 0 (min h y2))

/-- The `valid` list of `apply_detections` (source lines 204-213). -/
def validDetections (w h : ℤ) (dets : List Detection) : List (Box × Detection) :=
  dets.filterMap (fun d =>
    let c := clampBox w h d.bbox
    if c.2.2.1 ≤ c.1 ∨ c.2.2.2 ≤ c.2.1 then none else some (c, d))

/-- A candidate pair `(score, iou, -dist, tid, det_idx)` (source line 220). -/
abbrev MatchPair := ℚ × ℚ × ℚ × ℕ × ℕ

/-- Python `x or default` for a float configuration value (falsy `0.0` falls
back to the default), as used by the `getattr(..., d) or d` reads. -/
def orDefault (x d : ℚ) : ℚ := if x = 0 then d else x

/-- Candidate pair construction of `apply_detections` (source lines
220-252): detection-major iteration over tracks in insertion order. -/
def buildPairs (cfg : Config) (sqrtQ : ℚ → ℚ) (tracks : List (ℕ × Track))
    (valid : List (Box × Detection)) : List MatchPair :=
  valid.enum.flatMap (fun bd =>
    let det_idx := bd.1
    let (bx1, by1, bx2, by2) := bd.2.1
    let bw := max 1 (bx2 - bx1)
    let bh := max 1 (by2 - by1)
    let b_area : ℚ := (bw * bh : ℤ)
    tracks.filterMap (fun kv =>
      let tid := kv.1
      let tr := kv.2
      let (tx1, ty1, tx2, ty2) := tr.bbox
      let tw := max 1 (tx2 - tx1)
      let th := max 1 (ty2 - ty1)
      let t_area : ℚ := (tw * th : ℤ)
      let area_ratio := b_area / (t_area + 1 / 1000000)
      if area_ratio < 1/2 ∨ area_ratio > 2 then none
      else
        let iou := bboxIou tr.bbox bd.2.1
        let dist := centerDist sqrtQ tr.bbox bd.2.1
        let max_dim : ℚ := ((max (max tw th) (max bw bh) : ℤ) : ℚ)
        let eff_center := min cfg.track_center_match_px (4/5 * max_dim)
        if iou < cfg.track_iou_match_threshold ∧ dist > eff_center then none
        else
          let score := iou - dist / max 1 (eff_center * 4)
          some (score, iou, -dist, tid, det_idx)))

/-- Descending lexicographic order on pair tuples: `pairs.sort(reverse=True)`
puts `p` before `q` exactly when this holds. -/
def pairBefore (p q : MatchPair) : Bool :=
  if p.1 ≠ q.1 then p.1 > q.1
  else if p.2.1 ≠ q.2.1 then p.2.1 > q.2.1
  else if p.2.2.1 ≠ q.2.2.1 then p.2.2.1 > q.2.2.1
  else if p.2.2.2.1 ≠ q.2.2.2.1 then p.2.2.2.1 > q.2.2.2.1
  else p.2.2.2.2 ≥ q.2.2.2.2

/-- `pairs.sort(reverse=True)` (source line 252). -/
def sortPairs (ps : List MatchPair) : List MatchPair := ps.mergeSort pairBefore

/-- Association-list lookup mirroring `self._tracks[tid]`. -/
def lookupTrack : List (ℕ × Track) → ℕ → Option Track
  | [], _ => none
  | kv :: rest, tid => if kv.1 = tid then some kv.2 else lookupTrack rest tid

/-- In-place mutation of the track stored under `tid`. -/
def updateTrack (ts : List (ℕ × Track)) (tid : ℕ) (tr : Track) :
    List (ℕ × Track) :=
  ts.map (fun kv => if kv.1 = tid then (kv.1, tr) else kv)

/-- The re-acquire clearing distance threshold (source lines 266-273):
`ratio * max(t_max_dim, b_max_dim)` with per-box maximal dimensions. -/
def clearCenterThr (cfg : Config) (tbox dbox : Box) : ℚ :=
  let (tx1, ty1, tx2, ty2) := tbox
  let (bx1, by1, bx2, by2) := dbox
  let t_max_dim := max 1 (max (tx2 - tx1) (ty2 - ty1))
  let b_max_dim := max 1 (max (bx2 - bx1) (by2 - by1))
  orDefault cfg.track_known_reacquire_clear_center_ratio (13/20) *
    ((max t_max_dim b_max_dim : ℤ) : ℚ)

/-- Identity clearing on a weak re-acquire (source lines 275-286). -/
def clearIdentity (tr : Track) (now : ℚ) : Track :=
  { tr with person_id := none, name := "Unknown", similarity := 0,
            stable_id_hits := 0, unknown_since_ts := now, last_known_ts := 0,
            last_known_bbox := none, last_identity_change_ts := now,
            force_recognition_until_ts :=
              max tr.force_recognition_until_ts (now + 4/5) }

/-- The per-match track update (source lines 288-302); the cv2 tracker
re-initialisation is opaque and `bestKind` stands for
`self._best_tracker_kind()`. -/
def matchUpdate (tr : Track) (box : Box) (det : Detection) (bestKind : String)
    (now : ℚ) : Track :=
  { tr with bbox := box, last_det_ts := now, last_seen_ts := now,
            lost_frames := 0, det_misses := 0, tracker_kind := bestKind,
            det_score := det.det_score }

/-- State of the greedy assignment loop: `assigned_tracks`, `assigned_dets`,
the track dictionary, and a ghost log of the accepted `(tid, det_idx)`
matches in acceptance order. -/
structure GreedyState where
  assignedT : List ℕ := []
  assignedD : List ℕ := []
  tracks : List (ℕ × Track)
  assignLog : List (ℕ × ℕ) := []

/-- One iteration of the greedy matching loop (source lines 254-302). -/
def greedyStep (cfg : Config) (bestKind : String) (now : ℚ)
    (valid : List (Box × Detection)) (gs : GreedyState) (p : MatchPair) :
    GreedyState :=
  let tid := p.2.2.2.1
  let det_idx := p.2.2.2.2
  if tid ∈ gs.assignedT ∨ det_idx ∈ gs.assignedD then gs
  else
    match lookupTrack gs.tracks tid, valid.get? det_idx with
    | some tr, some bd =>
      let iou := p.2.1
      let dist := -p.2.2.1
      let tr1 :=
        if tr.person_id ≠ none ∧
            (iou < orDefault cfg.track_known_reacquire_clear_iou (9/50) ∨
              dist > clearCenterThr cfg tr.bbox bd.1) then
          clearIdentity tr now
        else tr
      let tr2 := matchUpdate tr1 bd.1 bd.2 bestKind now
      { assignedT := tid :: gs.assignedT, assignedD := det_idx :: gs.assignedD,
        tracks := updateTrack gs.tracks tid tr2,
        assignLog := gs.assignLog ++ [(tid, det_idx)] }
    | _, _ => gs

/-- The whole matching phase of `apply_detections` (source lines 215-302):
pair construction, sorting, greedy assignment.  `tracks` is the dictionary
after the `det_misses` bump of lines 201-202. -/
def matchPhase (cfg : Config) (sqrtQ : ℚ → ℚ) (bestKind : String) (now : ℚ)
    (tracks : List (ℕ × Track)) (valid : List (Box × Detection)) :
    GreedyState :=
  (sortPairs (buildPairs cfg sqrtQ tracks valid)).foldl
    (greedyStep cfg bestKind now valid) { tracks := tracks }

/-- The `det_misses` bump applied to every track at the start of
`apply_detections` (source lines 201-202). -/
def bumpMisses (tracks : List (ℕ × Track)) : List (ℕ × Track) :=
  tracks.map (fun kv => (kv.1, { kv.2 with det_misses := kv.2.det_misses + 1 }))

/-- A freshly spawned track (source lines 318-329). -/
def newTrackFor (tid : ℕ) (box : Box) (det : Detection) (bestKind : String)
    (now : ℚ) : Track :=
  { track_id := tid, bbox := box, created_ts := now, last_seen_ts := now,
    tracker_kind := bestKind, det_score := det.det_score, last_det_ts := now,
    det_misses := 0 }

/-- Spawning of tracks for unmatched detections (source lines 304-331). -/
def spawnLoop (bestKind : String) (now : ℚ) (assignedD : List ℕ) :
    List (ℕ × (Box × Detection)) → ℕ → List ℕ × List (ℕ × Track) × ℕ
  | [], nextId => ([], [], nextId)
  | jbd :: rest, nextId =>
    if jbd.1 ∈ assignedD then spawnLoop bestKind now assignedD rest nextId
    else
      let r := spawnLoop bestKind now assignedD rest (nextId + 1)
      (nextId :: r.1,
        (nextId, newTrackFor nextId jbd.2.1 jbd.2.2 bestKind now) :: r.2.1,
        r.2.2)

/-- Pruning of detector-unconfirmed tracks (source lines 336-345). -/
def pruneTracks (cfg : Config) (tracks : List (ℕ × Track)) :
    List (ℕ × Track) :=
  tracks.filter (fun kv =>
    let max_misses :=
      if kv.2.person_id ≠ none then cfg.track_max_det_misses_known
      else cfg.track_max_det_misses_unknown
    ¬(kv.2.det_misses > max_misses))

/-- `TrackerManager.apply_detections` (source lines 185-347): misses bump,
detection validation, matching phase, spawning, pruning.  Returns the new
track ids, the updated dictionary and the next fresh id. -/
def applyDetections (cfg : Config) (sqrtQ : ℚ → ℚ) (bestKind : String)
    (w h : ℤ) (tracks : List (ℕ × Track)) (nextId : ℕ) (dets : List Detection)
    (now : ℚ) : List ℕ × List (ℕ × Track) × ℕ :=
  let tracks := bumpMisses tracks
  let valid := validDetections w h dets
  let gs := matchPhase cfg sqrtQ bestKind now tracks valid
  let sp := spawnLoop bestKind now gs.assignedD valid.enum nextId
  (sp.1, pruneTracks cfg (gs.tracks ++ sp.2.1), sp.2.2)

/-- One event of the debouncer call sequence modelled for the attendance
runtime loop: a `consider` call for a track at a time, with `ok` recording
whether a produced job would actually be enqueued (FAS gate passed, writer
queue not full, identity still agreed: attendance_runtime lines 1050-1106). -/
structure ConsiderEv where
  tr : Track
  now : ℚ
  ok : Bool

/-- Run a sequence of `consider` calls against one camera, threading the
debouncer map and scheduler state, stamping `mark_enqueued` at the call's
`now` for every job that is enqueued (`ok`), exactly as `process_frame`
does.  Returns the times of the successfully enqueued-and-stamped jobs. -/
def runConsiders (cfg : Config) (camera_id camera_name : String)
    (company_id : Option String) :
    DebMap → SchedulerState → List ConsiderEv → List ℚ
  | _, _, [] => []
  | m, sched, ev :: rest =>
    let out := consider cfg m camera_id camera_name company_id ev.tr sched ev.now
    match out.result.job with
    | some job =>
      if ev.ok then
        let m := markEnqueued out.deb company_id job.employee_id ev.now
        ev.now :: runConsiders cfg camera_id camera_name company_id m out.sched rest
      else
        runConsiders cfg camera_id camera_name company_id out.deb out.sched rest
    | none => runConsiders cfg camera_id camera_name company_id out.deb out.sched rest

/-- `_env_bool` (pipeline_config lines 7-9).  The environment is abstracted
as `getenv` plus parse oracles for `float(s)` and `int(float(s))`
(returning `none` where Python raises). -/
structure PyEnv where
  getenv : String → Option String
  parseFloat : String → Option ℚ
  parseInt : String → Option ℤ

def envBool (env : PyEnv) (name : String) (default : Bool) : Bool :=
  match env.getenv name with
  | none => default
  | some v => (["1", "true", "yes", "on"] : List String).contains (pyLower (pyStrip v))

/-- `_env_float` (pipeline_config lines 12-16). -/
def envFloat (env : PyEnv) (name : String) (default : ℚ) : ℚ :=
  match env.getenv name with
  | none => default
  | some v => (env.parseFloat (pyStrip v)).getD default

/-- `_env_int` (pipeline_config lines 19-23): `int(float(s))`. -/
def envInt (env : PyEnv) (name : String) (default : ℤ) : ℤ :=
  match env.getenv name with
  | none => default
  | some v => (env.parseInt (pyStrip v)).getD default

/-- `Config.from_env`, part 1 (source lines 116-204): motion, scheduler,
recognition cadence, thresholds, attendance gates, queues and tracking.
The input `cfg` is the dataclass defaults with the `**overrides` already
applied (overrides may set any field to any value).  The source assigns
these fields one at a time; since every right-hand side only reads fields
not yet reassigned, the assignments are rendered as one simultaneous
update. -/
def fromEnvA (cfg : Config) (env : PyEnv) : Config :=
  { cfg with
    motion_threshold := envFloat env "MOTION_THRESHOLD" cfg.motion_threshold,
    motion_cooldown_seconds := envFloat env "MOTION_COOLDOWN_SECONDS" cfg.motion_cooldown_seconds,
    idle_seconds := envFloat env "IDLE_SECONDS" cfg.idle_seconds,
    detection_fps_idle := envFloat env "DETECTION_FPS_IDLE" cfg.detection_fps_idle,
    detection_fps_normal := envFloat env "DETECTION_FPS_NORMAL" cfg.detection_fps_normal,
    detection_fps_burst := envFloat env "DETECTION_FPS_BURST" cfg.detection_fps_burst,
    burst_seconds := envFloat env "BURST_SECONDS" cfg.burst_seconds,
    embed_refresh_seconds := envFloat env "EMBED_REFRESH_SECONDS" cfg.embed_refresh_seconds,
    embed_refresh_seconds_unknown := envFloat env "EMBED_REFRESH_UNKNOWN_SECONDS" cfg.embed_refresh_seconds_unknown,
    unknown_burst_after_seconds := envFloat env "UNKNOWN_BURST_AFTER_SECONDS" cfg.unknown_burst_after_seconds,
    similarity_threshold := envFloat env "SIMILARITY_THRESHOLD" cfg.similarity_threshold,
    borderline_margin := envFloat env "BORDERLINE_MARGIN" cfg.borderline_margin,
    distinct_sim_margin := envFloat env "DISTINCT_SIM_MARGIN" cfg.distinct_sim_margin,
    strict_similarity_threshold := envFloat env "STRICT_SIM_THRESHOLD" cfg.strict_similarity_threshold,
    min_att_quality := envFloat env "MIN_ATT_QUALITY" cfg.min_att_quality,
    attendance_debounce_seconds :=
      if (env.getenv "ATTENDANCE_DEBOUNCE_SECONDS").isSome then
        envFloat env "ATTENDANCE_DEBOUNCE_SECONDS" cfg.attendance_debounce_seconds
      else if (env.getenv "ATTENDANCE_COOLDOWN_S").isSome then
        envFloat env "ATTENDANCE_COOLDOWN_S" cfg.attendance_debounce_seconds
      else cfg.attendance_debounce_seconds,
    stable_id_confirmations :=
      if (env.getenv "STABLE_ID_CONFIRMATIONS").isSome then
        envInt env "STABLE_ID_CONFIRMATIONS" cfg.stable_id_confirmations
      else if (env.getenv "STABLE_HITS_REQUIRED").isSome then
        envInt env "STABLE_HITS_REQUIRED" cfg.stable_id_confirmations
      else cfg.stable_id_confirmations,
    queue_size := max 1 (envInt env "GPU_QUEUE_SIZE" cfg.queue_size),
    track_max_age_frames := max 1 (envInt env "TRACK_MAX_AGE_FRAMES" cfg.track_max_age_frames),
    track_iou_match_threshold := envFloat env "TRACK_IOU_MATCH_THRESHOLD" cfg.track_iou_match_threshold,
    track_center_match_px := envFloat env "TRACK_CENTER_MATCH_PX" cfg.track_center_match_px,
    track_known_reacquire_clear_iou := max 0 (min 1 (envFloat env "TRACK_KNOWN_REACQUIRE_CLEAR_IOU" cfg.track_known_reacquire_clear_iou)),
    track_known_reacquire_clear_center_ratio := max 0 (envFloat env "TRACK_KNOWN_REACQUIRE_CLEAR_CENTER_RATIO" cfg.track_known_reacquire_clear_center_ratio),
    track_max_det_misses_unknown := max 0 (envInt env "TRACK_MAX_DET_MISSES_UNKNOWN" cfg.track_max_det_misses_unknown),
    track_max_det_misses_known := max 0 (envInt env "TRACK_MAX_DET_MISSES_KNOWN" cfg.track_max_det_misses_known) }

/-- `Config.from_env`, part 2 (source lines 207-232): logging, verification
sample clamping and the fast-mode block. -/
def fromEnvVerif (cfg : Config) (env : PyEnv) : Config :=
  let log_interval := envFloat env "PIPELINE_LOG_INTERVAL_S" cfg.log_interval_seconds
  let vs := max 1 (envInt env "VERIFICATION_SAMPLES" cfg.verification_samples)
  let allow := envBool env "ALLOW_SINGLE_SAMPLE_ATTENDANCE" cfg.allow_single_sample_attendance
  let vs := if ¬allow then max 2 vs else vs
  let fast := envBool env "ATTENDANCE_FAST_MODE" cfg.attendance_fast_mode
  if fast then
    let ihold := max cfg.identity_hold_seconds 2
    if envBool env "FAST_MODE_KEEP_STRICT_CHECKS" true then
      let vs := if ¬allow then max 2 vs else vs
      { cfg with log_interval_seconds := log_interval, verification_samples := vs,
                 allow_single_sample_attendance := allow, attendance_fast_mode := fast,
                 identity_hold_seconds := ihold,
                 stable_id_confirmations := max cfg.stable_id_confirmations 2,
                 strict_similarity_threshold := max cfg.strict_similarity_threshold (cfg.similarity_threshold + cfg.borderline_margin) }
    else
      { cfg with log_interval_seconds := log_interval, verification_samples := 1,
                 allow_single_sample_attendance := allow, attendance_fast_mode := fast,
                 identity_hold_seconds := ihold,
                 stable_id_confirmations := min cfg.stable_id_confirmations 1,
                 strict_similarity_threshold := cfg.similarity_threshold }
  else
    { cfg with log_interval_seconds := log_interval, verification_samples := vs,
               allow_single_sample_attendance := allow, attendance_fast_mode := fast }

/-- `Config.from_env`, part 3 (source lines 234-266): identity hold and
attendance safety clamps (again a simultaneous update of independent
fields). -/
def fromEnvTail (cfg : Config) (env : PyEnv) : Config :=
  { cfg with
    identity_hold_seconds := max 0 (envFloat env "IDENTITY_HOLD_SECONDS" cfg.identity_hold_seconds),
    identity_hold_min_iou := envFloat env "IDENTITY_HOLD_MIN_IOU" cfg.identity_hold_min_iou,
    identity_hold_max_det_misses := max 0 (envInt env "IDENTITY_HOLD_MAX_DET_MISSES" cfg.identity_hold_max_det_misses),
    identity_hold_max_center_shift_ratio := max 0 (envFloat env "IDENTITY_HOLD_MAX_CENTER_SHIFT_RATIO" cfg.identity_hold_max_center_shift_ratio),
    attendance_max_embed_age_seconds := max 0 (envFloat env "ATTENDANCE_MAX_EMBED_AGE_S" cfg.attendance_max_embed_age_seconds),
    attendance_min_identity_age_seconds := max 0 (envFloat env "ATTENDANCE_MIN_ID_AGE_S" cfg.attendance_min_identity_age_seconds),
    max_detection_result_age_seconds := max 0 (envFloat env "MAX_DET_RESULT_AGE_S" cfg.max_detection_result_age_seconds),
    kps_max_age_seconds := max 0 (envFloat env "KPS_MAX_AGE_S" cfg.kps_max_age_seconds) }

/-- `Config.from_env` (source lines 106-267), composed from its three
sections.  `cfg` is the post-`**overrides` starting configuration. -/
def fromEnv (cfg : Config) (env : PyEnv) : Config :=
  fromEnvTail (fromEnvVerif (fromEnvA cfg env) env) env

/-- The environment with no relevant variables set. -/
def PyEnv.empty : PyEnv :=
  { getenv := fun _ => none, parseFloat := fun _ => none, parseInt := fun _ => none }

/-- A fresh `SchedulerState` as built by `AdaptiveScheduler.__init__` (with
the construction wall-clock time taken as 0). -/
def schedInit : SchedulerState := {}

/-- Concrete unknown track used for the C9 analysis: no identity, a
0.2-second-old embedding, not in a forced-recognition window. -/
def trC9 : Track :=
  { track_id := 1, bbox := (0, 0, 10, 10), created_ts := 0, last_seen_ts := 0,
    person_id := none, last_embed_ts := 10 }

/-- Concrete two-entry gallery whose rows are identical unit vectors but
belong to different employees. -/
def galleryC4 : List (List ℚ) := [[1], [1]]

def metaC4 : List (ℤ × String × String) := [(1, "A", "Alice"), (2, "B", "Bob")]

/-- Environment with `ATTENDANCE_FAST_MODE=1` and
`FAST_MODE_KEEP_STRICT_CHECKS=0`, everything else unset. -/
def envC10 : PyEnv :=
  { getenv := fun n =>
      if n = "ATTENDANCE_FAST_MODE" then some "1"
      else if n = "FAST_MODE_KEEP_STRICT_CHECKS" then some "0"
      else none,
    parseFloat := fun _ => none, parseInt := fun _ => none }

/-- Concrete track in the middle of verification with three collected
samples for the target, whose `stable_id_hits` is 0 and whose last
embedding is 11 seconds old at `now = 12`. -/
def trC2 : Track :=
  { track_id := 1, bbox := (0, 0, 10, 10), created_ts := 0, last_seen_ts := 0,
    person_id := some "7", name := "Emp", similarity := 9/10,
    stable_id_hits := 0, last_embed_ts := 1,
    verify_target_id := some "7", verify_target_name := some "Emp",
    verify_samples := [("7", 9/10), ("7", 9/10), ("7", 9/10)],
    verify_started_ts := 10, verify_last_embed_ts := 1 }

/-- A non-verifying candidate track passing every gate of `consider` at
`now = 12`. -/
def trC2w : Track :=
  { track_id := 1, bbox := (0, 0, 10, 10), created_ts := 0, last_seen_ts := 0,
    person_id := some "7", name := "Emp", similarity := 9/10,
    stable_id_hits := 3, last_embed_ts := 23/2,
    last_identity_change_ts := 10 }

/-- A single-sample configuration (`verification_samples = 1`: the value
the unsafe fast mode writes). -/
def cfgSingle : Config := { verification_samples := 1 }

/-- `trC2` with verification started at time 1, considered at `now = 10`:
more than `burst_seconds + 2` seconds after the start. -/
def trC3 : Track := { trC2 with verify_started_ts := 1 }

/-- A fully verified track (three matching samples, `verify_started_ts = 0`
so the timeout guard is inert), as left behind by earlier collection
calls. -/
def trC1 : Track := { trC2 with stable_id_hits := 5, verify_started_ts := 0 }

/-- Candidate tracks for the C1 witness run: gate-passing, not in
verification, with a fresh embedding at each call time. -/
def trC1w (t : ℚ) : Track := { trC2w with last_embed_ts := t }

/-- Concrete known track for the C8 witness: identity "7" at box
(0,0,10,10). -/
def trC8 : Track :=
  { track_id := 1, bbox := (0, 0, 10, 10), created_ts := 0, last_seen_ts := 0,
    person_id := some "7", name := "Emp", similarity := 9/10,
    stable_id_hits := 3 }

def detC8 : Detection := { bbox := (8, 0, 18, 10), det_score := 9/10 }

def validC8 : List (Box × Detection) := [((8, 0, 18, 10), detC8)]

def tracksC8 : List (ℕ × Track) := [(1, trC8)]

/-- Square root oracle for the C8 witness: the only distance evaluated is
√64 = 8. -/
def sqrtC8 : ℚ → ℚ := fun _ => 8

/-- The single candidate pair produced for `tracksC8` against `validC8`:
IoU 20/(180+10⁻⁶) ≈ 0.111 (below the 0.18 clearing threshold), center
distance 8. -/
def pC8 : MatchPair :=
  (20 / (180 + 1/1000000) - 1/4, 20 / (180 + 1/1000000), -8, 1, 0)

/-! ### Theorems -/

unseal Rat.add Rat.sub Rat.mul Rat.inv Rat.ofScientific in
/-- C9 counterexample: for the unknown track `trC9` (person_id is `None`)
with a 0.2-second-old embedding, outside any forced window and with the
scheduler in NORMAL mode, the claim predicts recognition should run
(0.2 ≥ embed_refresh_seconds_unknown = 0.15), but
`should_run_recognition` returns `False`: the code always compares against
`embed_refresh_seconds` and never reads `embed_refresh_seconds_unknown`. -/
theorem c9_counterexample :
    shouldRunRecognition Config.defaults { mode := Mode.NORMAL } trC9 (51/5) = false ∧
    specShouldRunRecognition Config.defaults trC9 (51/5) = true ∧
    ({ mode := Mode.NORMAL } : SchedulerState).mode ≠ Mode.IDLE ∧
    (51/5 : ℚ) ≥ trC9.force_recognition_until_ts := by decide

/-- C9 (amended): for every track outside a forced-recognition window and
with the scheduler not in IDLE, `should_run_recognition` returns true
exactly when `now − last_embed_ts ≥ embed_refresh_seconds`, for known and
unknown tracks alike (`embed_refresh_seconds_unknown` is never used). -/
theorem c9_refresh_period (cfg : Config) (st : SchedulerState) (tr : Track)
    (now : ℚ) (hmode : st.mode ≠ Mode.IDLE)
    (hforce : now ≥ tr.force_recognition_until_ts) :
    shouldRunRecognition cfg st tr now =
      decide (now - tr.last_embed_ts ≥ cfg.embed_refresh_seconds) := by
  unfold shouldRunRecognition
  rw [if_neg (by exact fun h => hmode h.1), if_neg (by exact not_lt.mpr hforce)]

unseal Rat.add Rat.sub Rat.mul Rat.inv Rat.ofScientific in
/-- C9 witness: the amended theorem applied to `trC9` at `now = 51/5` with
the scheduler in NORMAL mode. -/
theorem c9_refresh_period_witness :
    shouldRunRecognition Config.defaults { mode := Mode.NORMAL } trC9 (51/5) =
      decide ((51/5 : ℚ) - trC9.last_embed_ts ≥ Config.defaults.embed_refresh_seconds) :=
  c9_refresh_period Config.defaults { mode := Mode.NORMAL } trC9 (51/5)
    (by decide) (by decide)

/-- `np.argmax` helper: on a nonempty vector, `argmaxIdx` is in range, picks
an entry equal to the maximum, and that entry dominates every entry. -/
theorem argmaxIdx_spec (xs : List ℚ) (h : xs ≠ []) :
    argmaxIdx xs < xs.length ∧
    xs.get? (argmaxIdx xs) = some ((xs.max?).getD 0) ∧
    ∀ x ∈ xs, x ≤ (xs.max?).getD 0 := by
  obtain ⟨m, hm⟩ : ∃ m, xs.max? = some m := by
    cases hmax : xs.max? with
    | none => exact absurd (List.max?_eq_none_iff.mp hmax) h
    | some m => exact ⟨m, rfl⟩
  have hmem : m ∈ xs := List.max?_mem (fun a b => max_choice a b) hm
  have hle : ∀ x ∈ xs, x ≤ m :=
    (List.max?_le_iff (fun a b c => max_le_iff) hm).mp le_rfl
  rw [hm]
  simp only [Option.getD_some]
  unfold argmaxIdx
  rw [hm]
  simp only [Option.getD_some]
  refine ⟨List.indexOf_lt_length.mpr hmem, ?_, hle⟩
  exact List.indexOf_get? hmem

unseal Rat.add Rat.sub Rat.mul Rat.inv Rat.ofScientific in
/-- C4 counterexample: with two identical gallery rows belonging to
different employees, the top-1 score (1) does not exceed the best
different-person score (also 1) by `distinct_sim_margin` (0.05), yet
`_match_embedding` still produces the non-Unknown identity "A": the
distinct-match margin of the spec is never enforced (`distinct_sim_margin`
is read nowhere outside `pipeline_config`). -/
theorem c4_counterexample :
    (matchEmbedding galleryC4 metaC4 [1]).person_id = some "A" ∧
    specDistinctMarginOK Config.defaults galleryC4 metaC4 [1] = false := by decide

/-- C4 (amended): `match_gallery` returns the first index attaining the
maximum cosine similarity together with that maximum, and
`_match_embedding` produces a non-Unknown identity exactly when the gallery
is nonempty and the argmax index is inside the meta list — with no
distinct-person margin requirement. -/
theorem c4_match_no_margin (emb : List ℚ) (gallery : List (List ℚ))
    (meta : List (ℤ × String × String)) (hne : gallery ≠ []) :
    (matchGallery emb gallery).1 =
      ((argmaxIdx (gallery.map (fun row => dotQ row emb)) : ℕ) : ℤ) ∧
    (gallery.map (fun row => dotQ row emb)).get?
        (argmaxIdx (gallery.map (fun row => dotQ row emb))) =
      some (matchGallery emb gallery).2 ∧
    (∀ x ∈ gallery.map (fun row => dotQ row emb), x ≤ (matchGallery emb gallery).2) ∧
    ((matchEmbedding gallery meta emb).person_id.isSome = true ↔
      argmaxIdx (gallery.map (fun row => dotQ row emb)) < meta.length) := by
  have hsne : gallery.map (fun row => dotQ row emb) ≠ [] := by
    simpa using hne
  obtain ⟨hlt, hget, hdom⟩ := argmaxIdx_spec _ hsne
  have hmg : matchGallery emb gallery =
      (((argmaxIdx (gallery.map (fun row => dotQ row emb)) : ℕ) : ℤ),
        (gallery.map (fun row => dotQ row emb)).getD
          (argmaxIdx (gallery.map (fun row => dotQ row emb))) 0) := by
    unfold matchGallery
    rw [if_neg hne]
  have hgetD : (gallery.map (fun row => dotQ row emb)).getD
      (argmaxIdx (gallery.map (fun row => dotQ row emb))) 0 =
      ((gallery.map (fun row => dotQ row emb)).max?).getD 0 := by
    rw [List.getD_eq_getElem?_getD, ← List.get?_eq_getElem?, hget]
    rfl
  refine ⟨by rw [hmg], ?_, ?_, ?_⟩
  · rw [hmg]
    dsimp only
    rw [hgetD]
    exact hget
  · intro x hx
    rw [hmg]
    dsimp only
    rw [hgetD]
    exact hdom x hx
  · unfold matchEmbedding
    rw [if_neg hne, hmg]
    dsimp only
    by_cases hidx : argmaxIdx (gallery.map (fun row => dotQ row emb)) < meta.length
    · rw [if_pos]
      · rw [Int.toNat_ofNat]
        obtain ⟨mi, hmi⟩ : ∃ mi, meta.get?
            (argmaxIdx (gallery.map (fun row => dotQ row emb))) = some mi := by
          rw [List.get?_eq_getElem?]
          exact ⟨_, List.getElem?_eq_getElem hidx⟩
        rw [hmi]
        simpa using hidx
      · constructor
        · intro hcon
          exact absurd hcon (by omega)
        · exact_mod_cast hidx
    · rw [if_neg]
      · simpa using hidx
      · intro hcon
        exact hidx (by exact_mod_cast hcon.2)

unseal Rat.add Rat.sub Rat.mul Rat.inv Rat.ofScientific in
/-- C4 witness: the amended theorem applied to the concrete two-entry
gallery. -/
theorem c4_match_no_margin_witness :
    (matchGallery [1] galleryC4).1 =
      ((argmaxIdx (galleryC4.map (fun row => dotQ row [1])) : ℕ) : ℤ) ∧
    (galleryC4.map (fun row => dotQ row [1])).get?
        (argmaxIdx (galleryC4.map (fun row => dotQ row [1]))) =
      some (matchGallery [1] galleryC4).2 ∧
    (∀ x ∈ galleryC4.map (fun row => dotQ row [1]), x ≤ (matchGallery [1] galleryC4).2) ∧
    ((matchEmbedding galleryC4 metaC4 [1]).person_id.isSome = true ↔
      argmaxIdx (galleryC4.map (fun row => dotQ row [1])) < metaC4.length) :=
  c4_match_no_margin [1] galleryC4 metaC4 (by decide)

/-- `fromEnvTail` only touches identity-hold and freshness fields. -/
theorem fromEnvTail_verification (c : Config) (env : PyEnv) :
    (fromEnvTail c env).verification_samples = c.verification_samples ∧
    (fromEnvTail c env).allow_single_sample_attendance = c.allow_single_sample_attendance ∧
    (fromEnvTail c env).attendance_fast_mode = c.attendance_fast_mode :=
  ⟨rfl, rfl, rfl⟩

/-- C10 counterexample: with `ATTENDANCE_FAST_MODE=1` and
`FAST_MODE_KEEP_STRICT_CHECKS=0` in the environment (and
`allow_single_sample_attendance` left at its default `False`),
`Config.from_env` returns `verification_samples = 1`, so the immediate-mark
fast path of the debouncer is reachable. -/
theorem c10_counterexample :
    (fromEnv Config.defaults envC10).verification_samples = 1 ∧
    (fromEnv Config.defaults envC10).allow_single_sample_attendance = false := by
  constructor <;> rfl


/-- C10 (amended): the configuration returned by `Config.from_env` has
`verification_samples ≥ 2` whenever its `allow_single_sample_attendance` is
false AND the legacy unsafe fast mode is not selected (either
`attendance_fast_mode` is off, or `FAST_MODE_KEEP_STRICT_CHECKS` reads as
true, its default).  With `ATTENDANCE_FAST_MODE=1` and
`FAST_MODE_KEEP_STRICT_CHECKS=0` the code sets `verification_samples = 1`
even though `allow_single_sample_attendance` is false. -/
theorem c10_verification_floor (cfg0 : Config) (env : PyEnv)
    (hallow : (fromEnv cfg0 env).allow_single_sample_attendance = false)
    (hfast : (fromEnv cfg0 env).attendance_fast_mode = false ∨
      envBool env "FAST_MODE_KEEP_STRICT_CHECKS" true = true) :
    (fromEnv cfg0 env).verification_samples ≥ 2 := by
  unfold fromEnv at *
  rw [(fromEnvTail_verification _ env).1]
  rw [(fromEnvTail_verification _ env).2.1] at hallow
  rw [(fromEnvTail_verification _ env).2.2] at hfast
  by_cases hf : envBool env "ATTENDANCE_FAST_MODE" (fromEnvA cfg0 env).attendance_fast_mode <;>
  by_cases hk : envBool env "FAST_MODE_KEEP_STRICT_CHECKS" true <;>
  by_cases ha : envBool env "ALLOW_SINGLE_SAMPLE_ATTENDANCE"
      (fromEnvA cfg0 env).allow_single_sample_attendance <;>
    simp only [fromEnvVerif, hf, hk, ha, if_true, if_false, Bool.not_true,
      Bool.not_false, Bool.false_eq_true, Bool.true_eq_false, not_true, not_false_iff,
      ite_true, ite_false] at hallow hfast ⊢ <;>
    simp_all

/-- C10 witness: the amended theorem applied to the default configuration
in an empty environment. -/
theorem c10_verification_floor_witness :
    (fromEnv Config.defaults PyEnv.empty).verification_samples ≥ 2 :=
  c10_verification_floor Config.defaults PyEnv.empty rfl (Or.inl rfl)

unseal Rat.add Rat.sub Rat.mul Rat.inv Rat.ofScientific in
/-- C2 counterexample: a track in verification (`verify_target_id` set) with
three collected target samples receives a write job from `consider` at
`now = 12` although its `stable_id_hits` is 0 < 3 and its last embedding is
11 seconds old (far beyond `attendance_max_embed_age_seconds = 0.9`): the
verification completion path re-checks neither gate. -/
theorem c2_counterexample :
    ((consider Config.defaults DebMap.empty "cam1" "Cam 1" (some "co") trC2
        schedInit 12).result.job).isSome = true ∧
    trC2.stable_id_hits < Config.defaults.stable_id_confirmations ∧
    Config.defaults.attendance_max_embed_age_seconds > 0 ∧
    (12 : ℚ) - trC2.last_embed_ts > Config.defaults.attendance_max_embed_age_seconds := by
  refine ⟨?_, by decide, by decide, by decide⟩
  decide

/-- C2 (amended): on the non-verification path (no `verify_target_id` set
when `consider` is called), no job is ever returned for a track whose
`stable_id_hits` is below `stable_id_confirmations`, or (when
`attendance_max_embed_age_seconds > 0`) whose last embedding is absent or
older than `attendance_max_embed_age_seconds`.  The verification path can
emit without re-checking these gates (see the counterexample). -/
theorem c2_gates (cfg : Config) (m : DebMap) (cid cname : String)
    (co : Option String) (tr : Track) (sc : SchedulerState) (now : ℚ)
    (hver : pyTruthy tr.verify_target_id = false)
    (hjob : ((consider cfg m cid cname co tr sc now).result.job).isSome = true) :
    tr.stable_id_hits ≥ cfg.stable_id_confirmations ∧
    (cfg.attendance_max_embed_age_seconds > 0 →
      tr.last_embed_ts > 0 ∧
        now - tr.last_embed_ts ≤ cfg.attendance_max_embed_age_seconds) := by
  unfold consider at hjob
  cases hp : tr.person_id with
  | none =>
    rw [hp] at hjob
    simp at hjob
  | some pid =>
    rw [hp, hver] at hjob
    simp only [Bool.false_eq_true, if_false] at hjob
    split_ifs at hjob with h1 h2 h3 h4 h5 h6 h7 <;> try simp at hjob
    all_goals refine ⟨not_lt.mp h1, fun hpos => ?_⟩
    all_goals rcases not_and_or.mp h4 with h | h
    all_goals first
      | exact absurd hpos h
      | (rcases not_or.mp h with ⟨ha, hb⟩
         exact ⟨not_le.mp ha, not_lt.mp hb⟩)

unseal Rat.add Rat.sub Rat.mul Rat.inv Rat.ofScientific in
/-- C2 witness: the amended theorem applied to the gate-passing track
`trC2w` under the single-sample configuration, where `consider` does return
a job. -/
theorem c2_gates_witness :
    trC2w.stable_id_hits ≥ cfgSingle.stable_id_confirmations ∧
    (cfgSingle.attendance_max_embed_age_seconds > 0 →
      trC2w.last_embed_ts > 0 ∧
        (12 : ℚ) - trC2w.last_embed_ts ≤ cfgSingle.attendance_max_embed_age_seconds) :=
  c2_gates cfgSingle DebMap.empty "cam1" "Cam 1" (some "co") trC2w schedInit 12
    (by decide) (by decide)

unseal Rat.add Rat.sub Rat.mul Rat.inv Rat.ofScientific in
/-- C3 counterexample: `trC3` is in verification with `verification_samples
= 3` samples collected, all voting for the target with mean similarity 0.9
≥ 0.4, yet `consider` at `now = 10` returns no job: the call is more than
`burst_seconds + 2` seconds after `verify_started_ts = 1`, so the timeout
branch resets verification and discards the passing vote. -/
theorem c3_counterexample :
    Config.defaults.verification_samples = 3 ∧
    ((verifySamplesAfter trC3).length : ℤ) ≥ 3 ∧
    ((verifyVotes (verifySamplesAfter trC3) "7" : ℤ) ≥ 3 / 2 + 1 ∧
      verifyAvg (verifySamplesAfter trC3) "7" ≥
        Config.defaults.similarity_threshold + Config.defaults.borderline_margin) ∧
    (consider Config.defaults DebMap.empty "cam1" "Cam 1" (some "co") trC3
        schedInit 10).result.job = none := by decide

/-- C3 (amended): for a track in verification with `verification_samples =
N ≥ 2`, once at least `N` samples are collected AND the call is within
`burst_seconds + 2` seconds of `verify_started_ts`, a write job is returned
iff the target receives at least `⌊N/2⌋+1` votes and the mean similarity
over the target's samples is at least `similarity_threshold +
borderline_margin`; in both outcomes the verification state is reset.
(Without the timeout bound the claim fails: see the counterexample.) -/
theorem c3_verification_vote (cfg : Config) (m : DebMap) (cid cname : String)
    (co : Option String) (tr : Track) (sc : SchedulerState) (now : ℚ)
    (target : String)
    (hN : cfg.verification_samples ≥ 2)
    (htarget : tr.verify_target_id = some target)
    (hne : target ≠ "")
    (hpid : tr.person_id ≠ none)
    (htime : ¬(now - (if tr.verify_started_ts = 0 then now else tr.verify_started_ts) >
        cfg.burst_seconds + 2))
    (hlen : ((verifySamplesAfter tr).length : ℤ) ≥ cfg.verification_samples) :
    (((consider cfg m cid cname co tr sc now).result.job).isSome = true ↔
      ((verifyVotes (verifySamplesAfter tr) target : ℤ) ≥ cfg.verification_samples / 2 + 1 ∧
        verifyAvg (verifySamplesAfter tr) target ≥
          cfg.similarity_threshold + cfg.borderline_margin)) ∧
    (consider cfg m cid cname co tr sc now).track.verify_target_id = none ∧
    (consider cfg m cid cname co tr sc now).track.verify_samples = [] ∧
    (consider cfg m cid cname co tr sc now).track.verify_started_ts = 0 ∧
    (consider cfg m cid cname co tr sc now).track.verify_target_name = none := by
  have hver : pyTruthy tr.verify_target_id = true := by
    rw [htarget]
    simp [pyTruthy, hne]
  obtain ⟨pid, hp⟩ := Option.ne_none_iff_exists'.mp hpid
  unfold consider
  rw [hp, hver]
  simp only [if_true]
  unfold stepVerification
  rw [if_neg (by omega)]
  by_cases hc : tr.last_embed_ts > 0 ∧ tr.last_embed_ts ≠ tr.verify_last_embed_ts
  · rw [if_pos hc]
    dsimp only
    rw [if_neg htime, if_neg (by omega), htarget]
    dsimp only
    rw [if_neg hne]
    by_cases hok : ((verifyVotes (verifySamplesAfter tr) target : ℤ) ≥
        cfg.verification_samples / 2 + 1 ∧
        verifyAvg (verifySamplesAfter tr) target ≥
          cfg.similarity_threshold + cfg.borderline_margin)
    · rw [if_pos hok]
      exact ⟨by simpa using hok, rfl, rfl, rfl, rfl⟩
    · rw [if_neg hok]
      exact ⟨by simpa using hok, rfl, rfl, rfl, rfl⟩
  · have hsame : verifySamplesAfter tr = tr.verify_samples := by
      unfold verifySamplesAfter
      rw [if_neg hc]
    rw [if_neg hc]
    rw [hsame] at hlen ⊢
    rw [if_neg htime, if_neg (by omega), htarget]
    dsimp only
    rw [if_neg hne]
    by_cases hok : ((verifyVotes tr.verify_samples target : ℤ) ≥
        cfg.verification_samples / 2 + 1 ∧
        verifyAvg tr.verify_samples target ≥
          cfg.similarity_threshold + cfg.borderline_margin)
    · rw [if_pos hok]
      exact ⟨by simpa using hok, rfl, rfl, rfl, rfl⟩
    · rw [if_neg hok]
      exact ⟨by simpa using hok, rfl, rfl, rfl, rfl⟩

unseal Rat.add Rat.sub Rat.mul Rat.inv Rat.ofScientific in
/-- C3 witness: the amended theorem applied to `trC2` (three matching
samples, verification started at time 10) considered at `now = 12`. -/
theorem c3_verification_vote_witness :
    (((consider Config.defaults DebMap.empty "cam1" "Cam 1" (some "co") trC2
        schedInit 12).result.job).isSome = true ↔
      ((verifyVotes (verifySamplesAfter trC2) "7" : ℤ) ≥
          Config.defaults.verification_samples / 2 + 1 ∧
        verifyAvg (verifySamplesAfter trC2) "7" ≥
          Config.defaults.similarity_threshold + Config.defaults.borderline_margin)) ∧
    (consider Config.defaults DebMap.empty "cam1" "Cam 1" (some "co") trC2
        schedInit 12).track.verify_target_id = none ∧
    (consider Config.defaults DebMap.empty "cam1" "Cam 1" (some "co") trC2
        schedInit 12).track.verify_samples = [] ∧
    (consider Config.defaults DebMap.empty "cam1" "Cam 1" (some "co") trC2
        schedInit 12).track.verify_started_ts = 0 ∧
    (consider Config.defaults DebMap.empty "cam1" "Cam 1" (some "co") trC2
        schedInit 12).track.verify_target_name = none :=
  c3_verification_vote Config.defaults DebMap.empty "cam1" "Cam 1" (some "co") trC2
    schedInit 12 "7" (by decide) (by decide) (by decide) (by decide) (by decide)
    (by decide)

set_option maxHeartbeats 1000000 in
/-- On the non-verification path, a job from `consider` implies the
debounce-window condition held against the current `_last_marked` entry for
the track's identity, and `consider` itself leaves the map unchanged
(extended only by the `debounce_extend` branch, which returns no job). -/
theorem consider_nonverify (cfg : Config) (m : DebMap) (cid cname : String)
    (co : Option String) (tr : Track) (sc : SchedulerState) (now : ℚ)
    (hver : pyTruthy tr.verify_target_id = false) :
    (∀ job, (consider cfg m cid cname co tr sc now).result.job = some job →
      tr.person_id = some job.employee_id ∧
      now - m (debKey co job.employee_id) ≥ cfg.attendance_debounce_seconds ∧
      (consider cfg m cid cname co tr sc now).deb = m) ∧
    ((consider cfg m cid cname co tr sc now).deb = m ∨
      ∃ pid, tr.person_id = some pid ∧
        (consider cfg m cid cname co tr sc now).deb =
          fun k => if k = debKey co pid then now else m k) := by
  unfold consider
  cases hp : tr.person_id with
  | none =>
    exact ⟨fun job h => by simp at h, Or.inl rfl⟩
  | some pid =>
    rw [hver]
    simp only [Bool.false_eq_true, if_false]
    split_ifs with h1 h2 h3 h4 h5 h6 h7 <;>
      first
        | exact ⟨fun job h => h.elim, Or.inl rfl⟩
        | exact ⟨fun job h => h.elim, Or.inr ⟨pid, rfl, rfl⟩⟩
        | (refine ⟨fun job hj => ?_, Or.inl rfl⟩
           have hj2 := Option.some.inj hj
           subst hj2
           exact ⟨rfl, not_lt.mp h5, rfl⟩)

/-- Lowering the head of a gap-chain preserves it. -/
theorem chain_head_mono {d x y : ℚ} {l : List ℚ} (hxy : x ≤ y)
    (h : List.Chain' (fun a b => b - a ≥ d) (y :: l)) :
    List.Chain' (fun a b => b - a ≥ d) (x :: l) := by
  cases l with
  | nil => simp
  | cons z zs =>
    rw [List.chain'_cons] at h ⊢
    exact ⟨by linarith [h.1], h.2⟩

unseal Rat.add Rat.sub Rat.mul Rat.inv Rat.ofScientific in
/-- C1 counterexample: two tracks of the same employee "7" on one camera,
both already holding a completed verification, are considered at times 0
and 0.1.  Both calls return a job that is enqueued and stamped via
`mark_enqueued`, so two `AttendanceWriteJob`s land 0.1 seconds apart —
inside one `attendance_debounce_seconds = 10` window: the verification
completion path never consults `_last_marked`. -/
theorem c1_counterexample :
    runConsiders Config.defaults "cam1" "Cam 1" (some "co") DebMap.empty schedInit
      [⟨trC1, 0, true⟩, ⟨trC1, 1/10, true⟩] = [0, 1/10] ∧
    (1/10 : ℚ) - 0 < Config.defaults.attendance_debounce_seconds := by decide

/-- C1 (amended): for call sequences in which no considered track is in
verification (`verify_target_id` unset — hence every job stems from the
debounce-gated fast path), with nondecreasing call times and each enqueued
job stamped at its call time, the stamped job times (prefixed by the
initial `_last_marked` entry) form a chain with gaps of at least
`attendance_debounce_seconds`.  Via the verification path the guarantee
fails: see the counterexample. -/
theorem c1_debounce_window (cfg : Config) (cid cname : String)
    (co : Option String) (pid : String) (m : DebMap) (sc : SchedulerState)
    (evs : List ConsiderEv)
    (hver : ∀ ev ∈ evs, pyTruthy ev.tr.verify_target_id = false)
    (hpid : ∀ ev ∈ evs, ev.tr.person_id = none ∨ ev.tr.person_id = some pid)
    (hmono : evs.Pairwise (fun a b => a.now ≤ b.now))
    (hm : ∀ ev ∈ evs, m (debKey co pid) ≤ ev.now) :
    List.Chain' (fun a b => b - a ≥ cfg.attendance_debounce_seconds)
      (m (debKey co pid) :: runConsiders cfg cid cname co m sc evs) := by
  induction evs generalizing m sc with
  | nil => simp [runConsiders]
  | cons ev rest ih =>
    obtain ⟨hver1, hverR⟩ := List.forall_mem_cons.mp hver
    obtain ⟨hpid1, hpidR⟩ := List.forall_mem_cons.mp hpid
    obtain ⟨hm1, hmR⟩ := List.forall_mem_cons.mp hm
    obtain ⟨hmono1, hmonoR⟩ := List.pairwise_cons.mp hmono
    obtain ⟨hspec1, hspec2⟩ :=
      consider_nonverify cfg m cid cname co ev.tr sc ev.now hver1
    rw [runConsiders]
    cases hj : (consider cfg m cid cname co ev.tr sc ev.now).result.job with
    | none =>
      simp only [hj]
      rcases hspec2 with hd | ⟨pid2, hp2, hd⟩
      · rw [hd]
        exact ih m (consider cfg m cid cname co ev.tr sc ev.now).sched
          hverR hpidR hmonoR hmR
      · have hpe : pid2 = pid := by
          rcases hpid1 with h | h
          · rw [h] at hp2; cases hp2
          · rw [h] at hp2; exact (Option.some.inj hp2).symm
        subst hpe
        rw [hd]
        have hkey : (fun k => if k = debKey co pid2 then ev.now else m k)
            (debKey co pid2) = ev.now := if_pos rfl
        have hch := ih (fun k => if k = debKey co pid2 then ev.now else m k)
          (consider cfg m cid cname co ev.tr sc ev.now).sched hverR hpidR hmonoR
          (fun e he => by rw [hkey]; exact hmono1 e he)
        rw [hkey] at hch
        exact chain_head_mono hm1 hch
    | some job =>
      obtain ⟨hpj, hgap, hdm⟩ := hspec1 job hj
      have hpe : job.employee_id = pid := by
        rcases hpid1 with h | h
        · rw [h] at hpj; cases hpj
        · rw [h] at hpj; exact Option.some.inj hpj.symm
      simp only [hj]
      cases hok : ev.ok with
      | false =>
        simp only [Bool.false_eq_true, if_false]
        rw [hdm]
        exact ih m (consider cfg m cid cname co ev.tr sc ev.now).sched
          hverR hpidR hmonoR hmR
      | true =>
        simp only [if_true]
        rw [hdm, hpe]
        have hkey : markEnqueued m co pid ev.now (debKey co pid) = ev.now := by
          unfold markEnqueued
          exact if_pos rfl
        have hchain := ih (markEnqueued m co pid ev.now)
          (consider cfg m cid cname co ev.tr sc ev.now).sched hverR hpidR hmonoR
          (fun e he => by rw [hkey]; exact hmono1 e he)
        rw [hkey] at hchain
        rw [List.chain'_cons]
        refine ⟨?_, hchain⟩
        rw [hpe] at hgap
        exact hgap

unseal Rat.add Rat.sub Rat.mul Rat.inv Rat.ofScientific in
/-- C1 witness: the amended theorem applied to three fast-path calls at
times 100, 111 and 115 under the single-sample configuration (jobs land at
100 and 111; the call at 115 falls inside the extended window). -/
theorem c1_debounce_window_witness :
    List.Chain' (fun a b => b - a ≥ cfgSingle.attendance_debounce_seconds)
      (DebMap.empty (debKey (some "co") "7") ::
        runConsiders cfgSingle "cam1" "Cam 1" (some "co") DebMap.empty schedInit
          [⟨trC1w 100, 100, true⟩, ⟨trC1w 111, 111, true⟩, ⟨trC1w 115, 115, true⟩]) :=
  c1_debounce_window cfgSingle "cam1" "Cam 1" (some "co") "7" DebMap.empty schedInit
    [⟨trC1w 100, 100, true⟩, ⟨trC1w 111, 111, true⟩, ⟨trC1w 115, 115, true⟩]
    (by decide) (by decide) (by decide) (by decide)

/-- Invariant propagation for `push_voice_event` runs: returned seqs are
consecutive from the starting seq, the ghost full log carries seqs
`1..seq`, and the live bucket is a suffix of the full log. -/
theorem voiceRunFrom_spec (maxEvents : ℤ) (ck : String) :
    ∀ (ps : List VoicePush) (st : VoiceState),
      st.events <:+ st.fullLog →
      st.fullLog.map VoiceEvent.seq = List.range' 1 st.seq →
      st.seq = st.fullLog.length →
      (voiceRunFrom maxEvents ck st ps).1 = List.range' (st.seq + 1) ps.length ∧
      (voiceRunFrom maxEvents ck st ps).2.seq = st.seq + ps.length ∧
      (voiceRunFrom maxEvents ck st ps).2.fullLog.map VoiceEvent.seq =
        List.range' 1 (st.seq + ps.length) ∧
      (voiceRunFrom maxEvents ck st ps).2.events <:+
        (voiceRunFrom maxEvents ck st ps).2.fullLog := by
  intro ps
  induction ps with
  | nil =>
    intro st h1 h2 h3
    exact ⟨rfl, rfl, by simpa using h2, h1⟩
  | cons p rest ih =>
    intro st h1 h2 h3
    have hstep :
        (pushVoiceEvent maxEvents ck st p).1 = st.seq + 1 ∧
        (pushVoiceEvent maxEvents ck st p).2.seq = st.seq + 1 ∧
        (pushVoiceEvent maxEvents ck st p).2.fullLog = st.fullLog ++
          [⟨st.seq + 1, "Thank you, " ++ voiceFirstName p.employee_id p.name ++ ".",
            p.employee_id, p.name, p.camera_id, p.camera_name, ck⟩] ∧
        (pushVoiceEvent maxEvents ck st p).2.events <:+ st.events ++
          [⟨st.seq + 1, "Thank you, " ++ voiceFirstName p.employee_id p.name ++ ".",
            p.employee_id, p.name, p.camera_id, p.camera_name, ck⟩] := by
      refine ⟨rfl, rfl, rfl, ?_⟩
      unfold pushVoiceEvent
      dsimp only
      split_ifs with h
      · exact List.drop_suffix _ _
      · exact List.suffix_refl _
    obtain ⟨hs1, hs2, hs3, hs4⟩ := hstep
    have hsuffix : (pushVoiceEvent maxEvents ck st p).2.events <:+
        (pushVoiceEvent maxEvents ck st p).2.fullLog := by
      rw [hs3]
      refine hs4.trans ?_
      obtain ⟨t, ht⟩ := h1
      exact ⟨t, by rw [← List.append_assoc, ht]⟩
    have hlog : (pushVoiceEvent maxEvents ck st p).2.fullLog.map VoiceEvent.seq =
        List.range' 1 (st.seq + 1) := by
      rw [hs3, List.map_append, h2, List.range'_1_concat]
      simp [Nat.add_comm]
    have hlen : (pushVoiceEvent maxEvents ck st p).2.seq =
        (pushVoiceEvent maxEvents ck st p).2.fullLog.length := by
      rw [hs2, hs3, List.length_append, ← h3]
      rfl
    have hrest := ih (pushVoiceEvent maxEvents ck st p).2 hsuffix
      (by rw [hlog, hs2]) (by rw [hlen])
    unfold voiceRunFrom
    dsimp only
    refine ⟨?_, ?_, ?_, ?_⟩
    · rw [hrest.1, hs1, hs2]
      rw [List.length_cons, List.range'_succ]
    · rw [hrest.2.1, hs2, List.length_cons]
      omega
    · rw [hrest.2.2.1, hs2, List.length_cons]
      congr 1
      omega
    · exact hrest.2.2.2

/-- C7: for every company key, push_voice_event assigns consecutive `seq`
values starting at 1 (the n-th call returns n), the ghost log of all
appended events carries seqs `1..n` in order, and the live bucket is always
a suffix of that log: events are never reordered and trimming removes only
the oldest entries at the head. -/
theorem c7_voice_seq (maxEvents : ℤ) (ck : String) (ps : List VoicePush) :
    (voiceRun maxEvents ck ps).1 = List.range' 1 ps.length ∧
    (voiceRun maxEvents ck ps).2.seq = ps.length ∧
    (voiceRun maxEvents ck ps).2.fullLog.map VoiceEvent.seq =
      List.range' 1 ps.length ∧
    (voiceRun maxEvents ck ps).2.events <:+ (voiceRun maxEvents ck ps).2.fullLog := by
  have h := voiceRunFrom_spec maxEvents ck ps {} (List.suffix_refl _) rfl rfl
  unfold voiceRun
  simpa using h

/-- Invariant propagation for the per-camera arbiter result stream: the
`_seq` counter equals the number of results stored so far, stored results
carry seqs `1..n` in order, and `get_latest_result` sees the last stored
result. -/
theorem arbRunFrom_results (f : ℕ → List Detection) :
    ∀ (ops : List ArbOp) (st : ArbiterState),
      st.seq = st.resultsLog.length →
      st.resultsLog.map DetectionResult.seq = List.range' 1 st.seq →
      st.latest = st.resultsLog.getLast? →
      (arbRunFrom f st ops).seq = (arbRunFrom f st ops).resultsLog.length ∧
      (arbRunFrom f st ops).resultsLog.map DetectionResult.seq =
        List.range' 1 (arbRunFrom f st ops).seq ∧
      (arbRunFrom f st ops).latest = (arbRunFrom f st ops).resultsLog.getLast? := by
  intro ops
  induction ops with
  | nil => exact fun st h1 h2 h3 => ⟨h1, h2, h3⟩
  | cons op rest ih =>
    intro st h1 h2 h3
    cases op with
    | submit ts fr =>
      exact ih (arbSubmit st ts fr) h1 h2 h3
    | pick =>
      rw [show arbRunFrom f st (ArbOp.pick :: rest) =
        arbRunFrom f (arbPick f st) rest from rfl]
      cases hpv : st.pending with
      | false =>
        have hid : arbPick f st = st := by
          simp [arbPick, hpv]
        rw [hid]
        exact ih st h1 h2 h3
      | true =>
        cases hg : st.frames.getLast? with
        | none =>
          have hid : arbPick f st = { st with pending := false } := by
            simp [arbPick, hpv, hg]
          rw [hid]
          exact ih _ h1 h2 h3
        | some tf =>
          have hid : arbPick f st =
              { st with pending := false, frames := [],
                        dropped := st.dropped + st.frames.dropLast.length,
                        seq := st.seq + 1,
                        latest := some ⟨st.seq + 1, tf.1, f tf.2⟩,
                        resultsLog := st.resultsLog ++ [⟨st.seq + 1, tf.1, f tf.2⟩],
                        processedLog := st.processedLog ++ [tf] } := by
            simp [arbPick, hpv, hg]
          rw [hid]
          refine ih _ ?_ ?_ ?_
          · simp [h1]
          · simp only [List.map_append, h2, h1, List.map_cons, List.map_nil]
            rw [List.range'_1_concat]
            simp [h1, Nat.add_comm]
          · simp

/-- C6: per camera, the `DetectionResult`s stored by the arbiter worker
carry `seq` values `1, 2, ..., n` in storage order — strictly increasing by
1 per processed frame with no gaps, duplicates or reordering — the `_seq`
counter equals the number of stored results, and `get_latest_result`
observes the most recently stored one. -/
theorem c6_seq_monotone (f : ℕ → List Detection) (qs : ℤ) (ops : List ArbOp) :
    (arbRun f qs ops).resultsLog.map DetectionResult.seq =
      List.range' 1 (arbRun f qs ops).resultsLog.length ∧
    (arbRun f qs ops).seq = (arbRun f qs ops).resultsLog.length ∧
    (arbRun f qs ops).latest = (arbRun f qs ops).resultsLog.getLast? := by
  obtain ⟨h1, h2, h3⟩ := arbRunFrom_results f ops (arbInit qs) rfl rfl rfl
  unfold arbRun
  exact ⟨by rw [← h1]; exact h2, h1, h3⟩

/-- The eviction loop of `submit` keeps a suffix of the queue and counts
every evicted frame in `dropped`. -/
theorem evictLoop_spec (q : ℕ) :
    ∀ (fs : List (ℚ × ℕ)) (d : ℕ),
      (evictLoop q fs d).1 <:+ fs ∧
      (evictLoop q fs d).2 + (evictLoop q fs d).1.length = d + fs.length := by
  intro fs
  induction fs with
  | nil => intro d; exact ⟨List.suffix_refl _, rfl⟩
  | cons f rest ih =>
    intro d
    unfold evictLoop
    split_ifs with h
    · obtain ⟨ih1, ih2⟩ := ih (d + 1)
      refine ⟨ih1.trans (List.suffix_cons _ _), ?_⟩
      rw [ih2, List.length_cons]
      omega
    · exact ⟨List.suffix_refl _, rfl⟩

/-- Conservation and recency-order invariant for the per-camera queue:
every submitted frame is either processed, counted in `dropped`, or still
queued, and the queue is always a suffix of the submission order. -/
theorem arbRunFrom_queue (f : ℕ → List Detection) :
    ∀ (ops : List ArbOp) (st : ArbiterState),
      st.submittedLog.length = st.processedLog.length + st.dropped + st.frames.length →
      st.frames <:+ st.submittedLog →
      (arbRunFrom f st ops).submittedLog.length =
        (arbRunFrom f st ops).processedLog.length + (arbRunFrom f st ops).dropped +
          (arbRunFrom f st ops).frames.length ∧
      (arbRunFrom f st ops).frames <:+ (arbRunFrom f st ops).submittedLog := by
  intro ops
  induction ops with
  | nil => exact fun st h1 h2 => ⟨h1, h2⟩
  | cons op rest ih =>
    intro st h1 h2
    cases op with
    | submit ts fr =>
      rw [show arbRunFrom f st (ArbOp.submit ts fr :: rest) =
        arbRunFrom f (arbSubmit st ts fr) rest from rfl]
      obtain ⟨he1, he2⟩ := evictLoop_spec st.queueSize st.frames st.dropped
      refine ih (arbSubmit st ts fr) ?_ ?_
      · simp only [arbSubmit, List.length_append, List.length_cons, List.length_nil]
        omega
      · simp only [arbSubmit]
        obtain ⟨t, ht⟩ := he1.trans h2
        exact ⟨t, by rw [← List.append_assoc, ht]⟩
    | pick =>
      rw [show arbRunFrom f st (ArbOp.pick :: rest) =
        arbRunFrom f (arbPick f st) rest from rfl]
      cases hpv : st.pending with
      | false =>
        have hid : arbPick f st = st := by
          simp [arbPick, hpv]
        rw [hid]
        exact ih st h1 h2
      | true =>
        cases hg : st.frames.getLast? with
        | none =>
          have hid : arbPick f st = { st with pending := false } := by
            simp [arbPick, hpv, hg]
          rw [hid]
          exact ih _ h1 h2
        | some tf =>
          have hfe : st.frames ≠ [] := by
            intro hcon
            rw [hcon] at hg
            cases hg
          have hid : arbPick f st =
              { st with pending := false, frames := [],
                        dropped := st.dropped + st.frames.dropLast.length,
                        seq := st.seq + 1,
                        latest := some ⟨st.seq + 1, tf.1, f tf.2⟩,
                        resultsLog := st.resultsLog ++ [⟨st.seq + 1, tf.1, f tf.2⟩],
                        processedLog := st.processedLog ++ [tf] } := by
            simp [arbPick, hpv, hg]
          rw [hid]
          refine ih _ ?_ ?_
          · show st.submittedLog.length = (st.processedLog ++ [tf]).length +
              (st.dropped + st.frames.dropLast.length) + ([] : List (ℚ × ℕ)).length
            have hlen : st.frames.dropLast.length = st.frames.length - 1 :=
              List.length_dropLast _
            have hpos : 1 ≤ st.frames.length := by
              cases hfs : st.frames with
              | nil => exact absurd hfs hfe
              | cons a l => simp
            simp only [List.length_append, List.length_cons, List.length_nil]
            omega
          · exact List.nil_suffix

/-- C5: per camera, (a) every submitted frame is either passed to
`detect_fn`, counted in `dropped`, or still queued (conservation — frames
evicted by a full-queue `submit` and frames skipped at pickup are counted
and never detected); (b) the queue is always a suffix of the submission
order, so its last element is the most recently submitted frame still
queued; (c) a worker pickup on a pending camera detects exactly that last
queued frame, counts the older queued frames in `dropped` and empties the
queue. -/
theorem c5_newest_frame (f : ℕ → List Detection) (qs : ℤ) (ops : List ArbOp) :
    ((arbRun f qs ops).submittedLog.length =
      (arbRun f qs ops).processedLog.length + (arbRun f qs ops).dropped +
        (arbRun f qs ops).frames.length ∧
     (arbRun f qs ops).frames <:+ (arbRun f qs ops).submittedLog) ∧
    (∀ tf, (arbRun f qs ops).pending = true →
      (arbRun f qs ops).frames.getLast? = some tf →
      (arbPick f (arbRun f qs ops)).processedLog =
        (arbRun f qs ops).processedLog ++ [tf] ∧
      (arbPick f (arbRun f qs ops)).dropped =
        (arbRun f qs ops).dropped + ((arbRun f qs ops).frames.length - 1) ∧
      (arbPick f (arbRun f qs ops)).frames = []) := by
  refine ⟨arbRunFrom_queue f ops (arbInit qs) rfl List.nil_suffix, ?_⟩
  intro tf
  generalize arbRun f qs ops = s
  intro hp hg
  have hid : arbPick f s =
      { s with pending := false, frames := [],
               dropped := s.dropped + s.frames.dropLast.length,
               seq := s.seq + 1,
               latest := some ⟨s.seq + 1, tf.1, f tf.2⟩,
               resultsLog := s.resultsLog ++ [⟨s.seq + 1, tf.1, f tf.2⟩],
               processedLog := s.processedLog ++ [tf] } := by
    simp [arbPick, hp, hg]
  rw [hid]
  exact ⟨rfl, by rw [List.length_dropLast], rfl⟩

unseal Rat.add Rat.sub Rat.mul Rat.inv Rat.ofScientific in
/-- C5 witness: the pick characterization applied after two submits into a
queue of size 1 — the pickup detects the newest frame 2, the evicted frame
1 stays counted in `dropped`, and the queue empties. -/
theorem c5_newest_frame_witness :
    (arbPick (fun _ => [])
        (arbRun (fun _ => []) 1 [ArbOp.submit 0 1, ArbOp.submit 1 2])).processedLog =
      (arbRun (fun _ => []) 1 [ArbOp.submit 0 1, ArbOp.submit 1 2]).processedLog ++
        [((1 : ℚ), 2)] ∧
    (arbPick (fun _ => [])
        (arbRun (fun _ => []) 1 [ArbOp.submit 0 1, ArbOp.submit 1 2])).dropped =
      (arbRun (fun _ => []) 1 [ArbOp.submit 0 1, ArbOp.submit 1 2]).dropped +
        ((arbRun (fun _ => []) 1 [ArbOp.submit 0 1, ArbOp.submit 1 2]).frames.length - 1) ∧
    (arbPick (fun _ => [])
        (arbRun (fun _ => []) 1 [ArbOp.submit 0 1, ArbOp.submit 1 2])).frames = [] :=
  (c5_newest_frame (fun _ => []) 1 [ArbOp.submit 0 1, ArbOp.submit 1 2]).2 (1, 2)
    (by decide) (by decide)

/-- Updating an entry leaves lookups of other keys unchanged. -/
theorem lookupTrack_updateTrack_ne (ts : List (ℕ × Track)) (tid k : ℕ)
    (tr : Track) (h : k ≠ tid) :
    lookupTrack (updateTrack ts tid tr) k = lookupTrack ts k := by
  induction ts with
  | nil => rfl
  | cons kv rest ih =>
    show lookupTrack ((if kv.1 = tid then (kv.1, tr) else kv) :: updateTrack rest tid tr) k = _
    by_cases hk : kv.1 = tid
    · rw [if_pos hk]
      unfold lookupTrack
      rw [if_neg (by rw [hk]; exact fun hc => h hc.symm)]
      rw [if_neg (by rw [hk]; exact fun hc => h hc.symm)]
      exact ih
    · rw [if_neg hk]
      unfold lookupTrack
      by_cases hks : kv.1 = k
      · rw [if_pos hks, if_pos hks]
      · rw [if_neg hks, if_neg hks]
        exact ih

/-- Updating a present entry makes its lookup return the new track. -/
theorem lookupTrack_updateTrack_self (ts : List (ℕ × Track)) (tid : ℕ)
    (tr0 tr : Track) (h : lookupTrack ts tid = some tr0) :
    lookupTrack (updateTrack ts tid tr) tid = some tr := by
  induction ts with
  | nil => cases h
  | cons kv rest ih =>
    show lookupTrack ((if kv.1 = tid then (kv.1, tr) else kv) :: updateTrack rest tid tr) tid = _
    by_cases hk : kv.1 = tid
    · rw [if_pos hk]
      unfold lookupTrack
      rw [if_pos hk]
    · rw [if_neg hk]
      unfold lookupTrack
      rw [if_neg hk]
      unfold lookupTrack at h
      rw [if_neg hk] at h
      exact ih h

/-- An accepted greedy iteration: both endpoints get assigned, the match is
logged, and the track is updated (cleared first when re-acquired weakly). -/
theorem greedyStep_accept (cfg : Config) (bk : String) (now : ℚ)
    (valid : List (Box × Detection)) (gs : GreedyState) (p : MatchPair)
    (tr : Track) (bd : Box × Detection)
    (hT : p.2.2.2.1 ∉ gs.assignedT) (hD : p.2.2.2.2 ∉ gs.assignedD)
    (hl : lookupTrack gs.tracks p.2.2.2.1 = some tr)
    (hv : valid.get? p.2.2.2.2 = some bd) :
    greedyStep cfg bk now valid gs p =
      { assignedT := p.2.2.2.1 :: gs.assignedT,
        assignedD := p.2.2.2.2 :: gs.assignedD,
        tracks := updateTrack gs.tracks p.2.2.2.1
          (matchUpdate
            (if tr.person_id ≠ none ∧
                (p.2.1 < orDefault cfg.track_known_reacquire_clear_iou (9/50) ∨
                  -p.2.2.1 > clearCenterThr cfg tr.bbox bd.1) then
              clearIdentity tr now
            else tr) bd.1 bd.2 bk now),
        assignLog := gs.assignLog ++ [(p.2.2.2.1, p.2.2.2.2)] } := by
  unfold greedyStep
  rw [if_neg (not_or.mpr ⟨hT, hD⟩), hl, hv]

/-- Once a track id is assigned, the rest of the greedy loop neither
reassigns it nor touches its entry. -/
theorem greedy_preserve (cfg : Config) (bk : String) (now : ℚ)
    (valid : List (Box × Detection)) :
    ∀ (ps : List MatchPair) (gs : GreedyState) (tid : ℕ),
      tid ∈ gs.assignedT →
      lookupTrack (List.foldl (greedyStep cfg bk now valid) gs ps).tracks tid =
        lookupTrack gs.tracks tid := by
  intro ps
  induction ps with
  | nil => exact fun gs tid _ => rfl
  | cons p rest ih =>
    intro gs tid htid
    rw [List.foldl_cons]
    by_cases hskip : p.2.2.2.1 ∈ gs.assignedT ∨ p.2.2.2.2 ∈ gs.assignedD
    · have hstep : greedyStep cfg bk now valid gs p = gs := by
        unfold greedyStep
        rw [if_pos hskip]
      rw [hstep]
      exact ih gs tid htid
    · cases hl : lookupTrack gs.tracks p.2.2.2.1 with
      | none =>
        have hstep : greedyStep cfg bk now valid gs p = gs := by
          unfold greedyStep
          rw [if_neg hskip, hl]
        rw [hstep]
        exact ih gs tid htid
      | some tr =>
        cases hv : valid.get? p.2.2.2.2 with
        | none =>
          have hstep : greedyStep cfg bk now valid gs p = gs := by
            unfold greedyStep
            rw [if_neg hskip, hl, hv]
          rw [hstep]
          exact ih gs tid htid
        | some bd =>
          have hne : tid ≠ p.2.2.2.1 := by
            intro hc
            rw [← hc] at hskip
            exact hskip (Or.inl htid)
          rw [greedyStep_accept cfg bk now valid gs p tr bd
            (fun hc => hskip (Or.inl hc)) (fun hc => hskip (Or.inr hc)) hl hv]
          rw [ih _ tid (List.mem_cons_of_mem _ htid)]
          exact lookupTrack_updateTrack_ne gs.tracks p.2.2.2.1 tid _ hne

/-- The greedy loop's match log never repeats a track id or a detection
index, as long as logged ids are already marked assigned. -/
theorem greedy_nodup (cfg : Config) (bk : String) (now : ℚ)
    (valid : List (Box × Detection)) :
    ∀ (ps : List MatchPair) (gs : GreedyState),
      (gs.assignLog.map Prod.fst).Nodup →
      (gs.assignLog.map Prod.snd).Nodup →
      (∀ x ∈ gs.assignLog.map Prod.fst, x ∈ gs.assignedT) →
      (∀ y ∈ gs.assignLog.map Prod.snd, y ∈ gs.assignedD) →
      ((List.foldl (greedyStep cfg bk now valid) gs ps).assignLog.map Prod.fst).Nodup ∧
      ((List.foldl (greedyStep cfg bk now valid) gs ps).assignLog.map Prod.snd).Nodup := by
  intro ps
  induction ps with
  | nil => exact fun gs h1 h2 _ _ => ⟨h1, h2⟩
  | cons p rest ih =>
    intro gs h1 h2 hsub1 hsub2
    rw [List.foldl_cons]
    by_cases hskip : p.2.2.2.1 ∈ gs.assignedT ∨ p.2.2.2.2 ∈ gs.assignedD
    · have hstep : greedyStep cfg bk now valid gs p = gs := by
        unfold greedyStep
        rw [if_pos hskip]
      rw [hstep]
      exact ih gs h1 h2 hsub1 hsub2
    · cases hl : lookupTrack gs.tracks p.2.2.2.1 with
      | none =>
        have hstep : greedyStep cfg bk now valid gs p = gs := by
          unfold greedyStep
          rw [if_neg hskip, hl]
        rw [hstep]
        exact ih gs h1 h2 hsub1 hsub2
      | some tr =>
        cases hv : valid.get? p.2.2.2.2 with
        | none =>
          have hstep : greedyStep cfg bk now valid gs p = gs := by
            unfold greedyStep
            rw [if_neg hskip, hl, hv]
          rw [hstep]
          exact ih gs h1 h2 hsub1 hsub2
        | some bd =>
          rw [greedyStep_accept cfg bk now valid gs p tr bd
            (fun hc => hskip (Or.inl hc)) (fun hc => hskip (Or.inr hc)) hl hv]
          refine ih _ ?_ ?_ ?_ ?_
          · rw [List.map_append]
            simp only [List.map_cons, List.map_nil]
            rw [List.nodup_append]
            refine ⟨h1, List.nodup_singleton _, ?_⟩
            intro x hx hx2
            rw [List.mem_singleton] at hx2
            subst hx2
            exact hskip (Or.inl (hsub1 _ hx))
          · rw [List.map_append]
            simp only [List.map_cons, List.map_nil]
            rw [List.nodup_append]
            refine ⟨h2, List.nodup_singleton _, ?_⟩
            intro y hy hy2
            rw [List.mem_singleton] at hy2
            subst hy2
            exact hskip (Or.inr (hsub2 _ hy))
          · intro x hx
            rw [List.map_append] at hx
            rcases List.mem_append.mp hx with hx | hx
            · exact List.mem_cons_of_mem _ (hsub1 x hx)
            · simp only [List.map_cons, List.map_nil, List.mem_singleton] at hx
              subst hx
              exact List.mem_cons_self _ _
          · intro y hy
            rw [List.map_append] at hy
            rcases List.mem_append.mp hy with hy | hy
            · exact List.mem_cons_of_mem _ (hsub2 y hy)
            · simp only [List.map_cons, List.map_nil, List.mem_singleton] at hy
              subst hy
              exact List.mem_cons_self _ _

/-- C8: in the matching phase of `apply_detections` (pair construction,
descending sort, greedy loop), (a) the accepted matches pair each track
with at most one detection and each detection with at most one track; and
(b) whenever the loop accepts a pair whose recorded IoU is below
`track_known_reacquire_clear_iou` or whose recorded center distance
exceeds `track_known_reacquire_clear_center_ratio` times the larger box
dimension, and the matched track currently has an identity, the final
track dictionary holds that track with its identity cleared to Unknown and
`stable_id_hits` reset to 0 (and similarity 0). -/
theorem c8_assignment (cfg : Config) (sqrtQ : ℚ → ℚ) (bk : String) (now : ℚ)
    (tracks : List (ℕ × Track)) (valid : List (Box × Detection)) :
    (((matchPhase cfg sqrtQ bk now tracks valid).assignLog.map Prod.fst).Nodup ∧
     ((matchPhase cfg sqrtQ bk now tracks valid).assignLog.map Prod.snd).Nodup) ∧
    (∀ pre p post,
      sortPairs (buildPairs cfg sqrtQ tracks valid) = pre ++ p :: post →
      ∀ tr bd,
        p.2.2.2.1 ∉ (List.foldl (greedyStep cfg bk now valid)
          ({ tracks := tracks } : GreedyState) pre).assignedT →
        p.2.2.2.2 ∉ (List.foldl (greedyStep cfg bk now valid)
          ({ tracks := tracks } : GreedyState) pre).assignedD →
        lookupTrack (List.foldl (greedyStep cfg bk now valid)
          ({ tracks := tracks } : GreedyState) pre).tracks p.2.2.2.1 = some tr →
        valid.get? p.2.2.2.2 = some bd →
        tr.person_id ≠ none →
        (p.2.1 < orDefault cfg.track_known_reacquire_clear_iou (9/50) ∨
          -p.2.2.1 > clearCenterThr cfg tr.bbox bd.1) →
        lookupTrack (matchPhase cfg sqrtQ bk now tracks valid).tracks p.2.2.2.1 =
          some (matchUpdate (clearIdentity tr now) bd.1 bd.2 bk now) ∧
        (matchUpdate (clearIdentity tr now) bd.1 bd.2 bk now).person_id = none ∧
        (matchUpdate (clearIdentity tr now) bd.1 bd.2 bk now).name = "Unknown" ∧
        (matchUpdate (clearIdentity tr now) bd.1 bd.2 bk now).stable_id_hits = 0 ∧
        (matchUpdate (clearIdentity tr now) bd.1 bd.2 bk now).similarity = 0) := by
  constructor
  · exact greedy_nodup cfg bk now valid
      (sortPairs (buildPairs cfg sqrtQ tracks valid)) { tracks := tracks }
      List.nodup_nil List.nodup_nil (by intro x hx; cases hx) (by intro y hy; cases hy)
  · intro pre p post hsplit tr bd hT hD hl hv hid hcond
    have hphase : matchPhase cfg sqrtQ bk now tracks valid =
        List.foldl (greedyStep cfg bk now valid)
          (greedyStep cfg bk now valid
            (List.foldl (greedyStep cfg bk now valid)
              ({ tracks := tracks } : GreedyState) pre) p) post := by
      unfold matchPhase
      rw [hsplit, List.foldl_append, List.foldl_cons]
    rw [hphase]
    rw [greedyStep_accept cfg bk now valid _ p tr bd hT hD hl hv]
    rw [if_pos ⟨hid, hcond⟩]
    refine ⟨?_, rfl, rfl, rfl, rfl⟩
    rw [greedy_preserve cfg bk now valid post _ p.2.2.2.1
      (List.mem_cons_self _ _)]
    exact lookupTrack_updateTrack_self _ p.2.2.2.1 tr _ hl

unseal Rat.add Rat.sub Rat.mul Rat.inv Rat.ofScientific in
/-- C8 witness: the assignment theorem applied to one known track matched
with one weak-overlap detection (IoU ≈ 0.111 < 0.18): the final dictionary
holds the track with identity cleared. -/
theorem c8_assignment_witness :
    lookupTrack (matchPhase Config.defaults sqrtC8 "mil" 5 tracksC8 validC8).tracks 1 =
      some (matchUpdate (clearIdentity trC8 5) ((8, 0, 18, 10) : Box) detC8 "mil" 5) ∧
    (matchUpdate (clearIdentity trC8 5) ((8, 0, 18, 10) : Box) detC8 "mil" 5).person_id = none ∧
    (matchUpdate (clearIdentity trC8 5) ((8, 0, 18, 10) : Box) detC8 "mil" 5).name = "Unknown" ∧
    (matchUpdate (clearIdentity trC8 5) ((8, 0, 18, 10) : Box) detC8 "mil" 5).stable_id_hits = 0 ∧
    (matchUpdate (clearIdentity trC8 5) ((8, 0, 18, 10) : Box) detC8 "mil" 5).similarity = 0 :=
  (c8_assignment Config.defaults sqrtC8 "mil" 5 tracksC8 validC8).2 [] pC8 []
    (by
      have hb : buildPairs Config.defaults sqrtC8 tracksC8 validC8 = [pC8] := by decide
      rw [hb]
      simp [sortPairs])
    trC8 ((8, 0, 18, 10), detC8) (by decide) (by decide) rfl rfl (by decide)
    (Or.inl (by decide))
